import Mathlib

/-!
# Pomodoro timer (`src/app.js`): day state machine and persistence reconciliation

A shallow embedding of the class `PomodoroTimer` of `src/app.js`.

* JavaScript numbers are restricted to integers (`Int`); timestamps are
  milliseconds as returned by `Date.now()`, which every operation that reads
  the clock receives as the argument `now`.
* The object's fields become the fields of the structure `PomodoroTimer`.
  The two pieces of browser environment that the methods read and write are
  carried in the same structure: the `localStorage` entry `pomodoroState`
  and the number of `setTimeout` callbacks scheduled by `onTimerComplete`
  that have not fired yet.
* DOM writes (labels, button states, notifications, sound) change no field
  that any method reads back and are left out.
-/

namespace Pomodoro

/-- The values of `currentMode`: `'ready'`, `'focus'`, `'shortBreak'`, `'longBreak'`. -/
inductive Mode where
  | ready
  | focus
  | shortBreak
  | longBreak
deriving DecidableEq, Repr

/-- The record written by `saveState` (app.js 410-424).  The two fields that
`loadState` tests for presence are optional: `none` is an absent field. -/
structure Snapshot where
  timeRemaining : Int
  totalTime : Int
  isRunning : Bool
  currentMode : Mode
  dayActive : Bool
  dayStartTime : Option Int
  completedFocusSessions : Int
  completedShortBreaks : Int
  completedLongBreaks : Int
  sessionsSinceLastLongBreak : Int
  sessionsBeforeLongBreak : Option Int
  autoProgress : Option Bool
  lastUpdate : Int
deriving DecidableEq, Repr

/-- What `localStorage.getItem('pomodoroState')` holds: nothing (`null` or the
empty string, both falsy), a text `JSON.parse` throws on, or a record. -/
inductive Storage where
  | missing
  | corrupt
  | saved (state : Snapshot)
deriving DecidableEq, Repr

/-- The fields of a `PomodoroTimer` object (app.js 4-24), with the storage
entry and the pending auto-start timeouts of its page. -/
structure PomodoroTimer where
  SESSIONS_BEFORE_LONG_BREAK : Int
  timeRemaining : Int
  totalTime : Int
  isRunning : Bool
  currentMode : Mode
  /-- Whether the one-second `setInterval` installed by `start` is live. -/
  timerInterval : Bool
  autoProgress : Bool
  dayActive : Bool
  dayStartTime : Option Int
  completedFocusSessions : Int
  completedShortBreaks : Int
  completedLongBreaks : Int
  sessionsSinceLastLongBreak : Int
  /-- The `pomodoroState` entry of `localStorage`. -/
  localStorage : Storage
  /-- Scheduled `setTimeout(() => this.start(), 1000)` callbacks not yet fired. -/
  pendingAutoStarts : Nat
deriving DecidableEq, Repr

/-- `this.FOCUS_TIME = 1 * 60; // 25 minutes` (app.js 5). -/
def FOCUS_TIME : Int := 1 * 60

/-- `this.SHORT_BREAK = 5 * 60` (app.js 6). -/
def SHORT_BREAK : Int := 5 * 60

/-- `this.LONG_BREAK = 30 * 60` (app.js 7). -/
def LONG_BREAK : Int := 30 * 60

/-- The field initialisers of the constructor (app.js 8-24), on a page whose
storage entry is `store`. -/
def fresh (store : Storage) : PomodoroTimer :=
  { SESSIONS_BEFORE_LONG_BREAK := 4
    timeRemaining := FOCUS_TIME
    totalTime := FOCUS_TIME
    isRunning := false
    currentMode := Mode.ready
    timerInterval := false
    autoProgress := false
    dayActive := false
    dayStartTime := none
    completedFocusSessions := 0
    completedShortBreaks := 0
    completedLongBreaks := 0
    sessionsSinceLastLongBreak := 0
    localStorage := store
    pendingAutoStarts := 0 }

/-- The object literal built by `saveState` (app.js 410-424). -/
def snapshotOf (t : PomodoroTimer) (now : Int) : Snapshot :=
  { timeRemaining := t.timeRemaining
    totalTime := t.totalTime
    isRunning := t.isRunning
    currentMode := t.currentMode
    dayActive := t.dayActive
    dayStartTime := t.dayStartTime
    completedFocusSessions := t.completedFocusSessions
    completedShortBreaks := t.completedShortBreaks
    completedLongBreaks := t.completedLongBreaks
    sessionsSinceLastLongBreak := t.sessionsSinceLastLongBreak
    sessionsBeforeLongBreak := some t.SESSIONS_BEFORE_LONG_BREAK
    autoProgress := some t.autoProgress
    lastUpdate := now }

/-- `saveState()` (app.js 409-427). -/
def saveState (t : PomodoroTimer) (now : Int) : PomodoroTimer :=
  { t with localStorage := Storage.saved (snapshotOf t now) }

/-- `switchMode(mode)` (app.js 314-342). -/
def switchMode (t : PomodoroTimer) (mode : Mode) : PomodoroTimer :=
  let total : Int :=
    match mode with
    | Mode.ready => FOCUS_TIME
    | Mode.focus => FOCUS_TIME
    | Mode.shortBreak => SHORT_BREAK
    | Mode.longBreak => LONG_BREAK
  { t with currentMode := mode, totalTime := total, timeRemaining := total }

/-- `start()` (app.js 231-244). -/
def start (t : PomodoroTimer) (now : Int) : PomodoroTimer :=
  if !t.dayActive then t
  else if !t.isRunning then
    saveState { t with isRunning := true, timerInterval := true } now
  else t

/-- `pause()` (app.js 246-254). -/
def pause (t : PomodoroTimer) (now : Int) : PomodoroTimer :=
  if t.isRunning then
    saveState { t with isRunning := false, timerInterval := false } now
  else t

/-- `reset()` (app.js 256-261). -/
def reset (t : PomodoroTimer) (now : Int) : PomodoroTimer :=
  let t1 := pause t now
  saveState { t1 with timeRemaining := t1.totalTime } now

/-- `onTimerComplete()` (app.js 272-312). -/
def onTimerComplete (t : PomodoroTimer) (now : Int) : PomodoroTimer :=
  let t1 := pause t now
  let t2 :=
    match t1.currentMode with
    | Mode.focus =>
      let t' := { t1 with
        completedFocusSessions := t1.completedFocusSessions + 1
        sessionsSinceLastLongBreak := t1.sessionsSinceLastLongBreak + 1 }
      if t'.sessionsSinceLastLongBreak ≥ t'.SESSIONS_BEFORE_LONG_BREAK then
        switchMode t' Mode.longBreak
      else
        switchMode t' Mode.shortBreak
    | Mode.shortBreak =>
      switchMode { t1 with completedShortBreaks := t1.completedShortBreaks + 1 } Mode.focus
    | Mode.longBreak =>
      switchMode { t1 with
        completedLongBreaks := t1.completedLongBreaks + 1
        sessionsSinceLastLongBreak := 0 } Mode.focus
    | Mode.ready => t1
  let t3 := saveState t2 now
  if t3.autoProgress && t3.dayActive then
    { t3 with pendingAutoStarts := t3.pendingAutoStarts + 1 }
  else t3

/-- `tick()` (app.js 263-270). -/
def tick (t : PomodoroTimer) (now : Int) : PomodoroTimer :=
  if t.timeRemaining > 0 then
    { t with timeRemaining := t.timeRemaining - 1 }
  else
    onTimerComplete t now

/-- The callback `() => { this.start(); }` scheduled by `onTimerComplete`
(app.js 308-310), run when its one-second delay fires. -/
def autoStartFires (t : PomodoroTimer) (now : Int) : PomodoroTimer :=
  start { t with pendingAutoStarts := t.pendingAutoStarts - 1 } now

/-- `startDay()` (app.js 138-153). -/
def startDay (t : PomodoroTimer) (now : Int) : PomodoroTimer :=
  let t1 := { t with
    dayActive := true
    dayStartTime := some now
    completedFocusSessions := 0
    completedShortBreaks := 0
    completedLongBreaks := 0
    sessionsSinceLastLongBreak := 0 }
  saveState (switchMode t1 Mode.focus) now

/-- The tiers of the motivational message of `showSummary` (app.js 185-193). -/
inductive Message where
  | everyJourney
  | goodStart
  | greatWork
  | outstanding
deriving DecidableEq, Repr

/-- The values `showSummary` writes into the summary modal (app.js 169-193). -/
structure Summary where
  totalSessions : Int
  shortBreaks : Int
  longBreaks : Int
  totalFocusMinutes : Int
  hours : Int
  minutes : Int
  startTime : Option Int
  endTime : Int
  message : Message
deriving DecidableEq, Repr

/-- `showSummary()` (app.js 169-196): the displayed values; it assigns no field.
`Math.floor(x / 60)` is `/` (rounding down for a positive divisor) and the
JavaScript `%` is the truncating remainder `Int.tmod`. -/
def showSummary (t : PomodoroTimer) (now : Int) : Summary :=
  let dayEndTime := now
  let totalFocusMinutes := t.completedFocusSessions * 25
  { totalSessions := t.completedFocusSessions
    shortBreaks := t.completedShortBreaks
    longBreaks := t.completedLongBreaks
    totalFocusMinutes := totalFocusMinutes
    hours := totalFocusMinutes / 60
    minutes := Int.tmod totalFocusMinutes 60
    startTime := t.dayStartTime
    endTime := dayEndTime
    message :=
      if t.completedFocusSessions = 0 then Message.everyJourney
      else if t.completedFocusSessions < 4 then Message.goodStart
      else if t.completedFocusSessions < 8 then Message.greatWork
      else Message.outstanding }

/-- `endDay()` (app.js 155-167): the new state and the summary it displays. -/
def endDay (t : PomodoroTimer) (now : Int) : PomodoroTimer × Summary :=
  let t1 := if t.isRunning then pause t now else t
  let t2 := { t1 with dayActive := false }
  (saveState t2 now, showSummary t2 now)

/-- `startNewDay()` (app.js 202-224). -/
def startNewDay (t : PomodoroTimer) (now : Int) : PomodoroTimer :=
  let t1 := { t with
    dayActive := false
    dayStartTime := none
    completedFocusSessions := 0
    completedShortBreaks := 0
    completedLongBreaks := 0
    sessionsSinceLastLongBreak := 0 }
  saveState (switchMode t1 Mode.ready) now

/-- `saveSettings()` (app.js 124-136); `newSessions` is
`parseInt(this.sessionsInput.value)`, with `none` for the `NaN` it returns on
a non-number (both comparisons are then false), and `checked` is
`this.autoProgressToggle.checked`. -/
def saveSettings (t : PomodoroTimer) (newSessions : Option Int) (checked : Bool)
    (now : Int) : PomodoroTimer :=
  match newSessions with
  | some n =>
    if n ≥ 1 ∧ n ≤ 10 then
      saveState { t with SESSIONS_BEFORE_LONG_BREAK := n, autoProgress := checked } now
    else t
  | none => t

/-- `Math.floor((Date.now() - state.lastUpdate) / 1000)` (app.js 436, 510).
On `Int`, `/` by a positive literal rounds down. -/
def timeElapsed (now : Int) (state : Snapshot) : Int :=
  (now - state.lastUpdate) / 1000

/-- The verbatim restores of `loadState` (app.js 438-457). -/
def restoreFields (t : PomodoroTimer) (state : Snapshot) : PomodoroTimer :=
  let t1 := { t with
    currentMode := state.currentMode
    dayActive := state.dayActive
    dayStartTime := state.dayStartTime
    completedFocusSessions := state.completedFocusSessions
    completedShortBreaks := state.completedShortBreaks
    completedLongBreaks := state.completedLongBreaks
    sessionsSinceLastLongBreak := state.sessionsSinceLastLongBreak
    totalTime := state.totalTime }
  -- `if (state.sessionsBeforeLongBreak)`: present and not 0
  let t2 :=
    match state.sessionsBeforeLongBreak with
    | some n => if n ≠ 0 then { t1 with SESSIONS_BEFORE_LONG_BREAK := n } else t1
    | none => t1
  -- `if (state.autoProgress !== undefined)`
  match state.autoProgress with
  | some b => { t2 with autoProgress := b }
  | none => t2

/-- `loadState()` (app.js 429-503); `none` is the `SyntaxError` thrown by
`JSON.parse`. -/
def loadState (t : PomodoroTimer) (now : Int) : Option PomodoroTimer :=
  match t.localStorage with
  | Storage.missing => some t
  | Storage.corrupt => none
  | Storage.saved state =>
    let elapsed := timeElapsed now state
    let t1 := restoreFields t state
    if state.isRunning then
      let t2 := { t1 with timeRemaining := max 0 (state.timeRemaining - elapsed) }
      if t2.timeRemaining = 0 then
        some (onTimerComplete t2 now)
      else
        some (start t2 now)
    else
      some { t1 with timeRemaining := state.timeRemaining }

/-- `syncTimeFromStorage()` (app.js 505-517). -/
def syncTimeFromStorage (t : PomodoroTimer) (now : Int) : Option PomodoroTimer :=
  match t.localStorage with
  | Storage.missing => some t
  | Storage.corrupt => if t.isRunning then none else some t
  | Storage.saved state =>
    if t.isRunning then
      let elapsed := timeElapsed now state
      let t1 := { t with timeRemaining := max 0 (state.timeRemaining - elapsed) }
      if t1.timeRemaining = 0 then
        some (onTimerComplete t1 now)
      else
        some t1
    else some t

/-- `new PomodoroTimer()` as far as the state goes (app.js 3-62): the field
initialisers followed by `loadState()`. -/
def construct (store : Storage) (now : Int) : Option PomodoroTimer :=
  loadState (fresh store) now

/-- `n` consecutive calls of `onTimerComplete`, the i-th at time `nows[i]`. -/
def completions (t : PomodoroTimer) (nows : List Int) : PomodoroTimer :=
  nows.foldl onTimerComplete t

/-- The state of the long-break cadence after `n` completions of a day with
threshold `s`: completions `1, 3, 5, ...` are focus completions. -/
def CadenceInv (s n : Nat) (t : PomodoroTimer) : Prop :=
  t.SESSIONS_BEFORE_LONG_BREAK = (s : Int) ∧
  t.completedFocusSessions = (((n + 1) / 2 : Nat) : Int) ∧
  (n % 2 = 0 →
    t.currentMode = Mode.focus ∧ t.sessionsSinceLastLongBreak = (((n / 2) % s : Nat) : Int)) ∧
  (n % 2 = 1 →
    t.sessionsSinceLastLongBreak = (((n / 2) % s + 1 : Nat) : Int) ∧
    t.currentMode = if (n / 2) % s + 1 ≥ s then Mode.longBreak else Mode.shortBreak)

/-- A snapshot of a running focus interval with 100 seconds left, sessions
counter 3 of 4, written at time `lastUpdate`. -/
def runningFocus (lastUpdate : Int) : Snapshot :=
  { timeRemaining := 100
    totalTime := FOCUS_TIME
    isRunning := true
    currentMode := Mode.focus
    dayActive := true
    dayStartTime := some 0
    completedFocusSessions := 3
    completedShortBreaks := 3
    completedLongBreaks := 0
    sessionsSinceLastLongBreak := 3
    sessionsBeforeLongBreak := some 4
    autoProgress := some false
    lastUpdate := lastUpdate }

/-- What can happen to a page: the user intents wired in
`attachEventListeners` (app.js 108-118), the timer callbacks, and the
handlers installed by the constructor (app.js 64-81). -/
inductive Event where
  | startDay
  | endDay
  | startNewDay
  | start
  | pause
  | reset
  | saveSettings (newSessions : Option Int) (checked : Bool)
  /-- The `setInterval` callback of `start`. -/
  | tick
  /-- A direct call of `onTimerComplete`. -/
  | complete
  /-- The `setTimeout` callback of `onTimerComplete`. -/
  | autoStart
  /-- The constructor's periodic `if (this.isRunning) this.saveState()`. -/
  | periodicSave
  /-- The `beforeunload` handler. -/
  | beforeUnload
  /-- A new page load: `new PomodoroTimer()` over the same storage. -/
  | reload
  /-- The `visibilitychange` handler when the page becomes visible. -/
  | visible
deriving DecidableEq, Repr

/-- The state after event `e` happens at clock reading `now`; `none` when the
handler throws or the callback is not scheduled. -/
def step (t : PomodoroTimer) (e : Event) (now : Int) : Option PomodoroTimer :=
  match e with
  | Event.startDay => some (startDay t now)
  | Event.endDay => some (endDay t now).1
  | Event.startNewDay => some (startNewDay t now)
  | Event.start => some (start t now)
  | Event.pause => some (pause t now)
  | Event.reset => some (reset t now)
  | Event.saveSettings newSessions checked => some (saveSettings t newSessions checked now)
  | Event.tick => some (tick t now)
  | Event.complete => some (onTimerComplete t now)
  | Event.autoStart => if 0 < t.pendingAutoStarts then some (autoStartFires t now) else none
  | Event.periodicSave => if t.isRunning then some (saveState t now) else some t
  | Event.beforeUnload => some (saveState t now)
  | Event.reload => construct t.localStorage now
  | Event.visible => if t.isRunning then syncTimeFromStorage t now else some t

/-- The states reachable from a first page load over empty storage by events
whose clock readings satisfy `clock`. -/
inductive Reachable (clock : PomodoroTimer → Event → Int → Prop) : PomodoroTimer → Prop where
  | init : Reachable clock (fresh Storage.missing)
  | next (t t' : PomodoroTimer) (e : Event) (now : Int) :
      Reachable clock t → clock t e now → step t e now = some t' → Reachable clock t'

/-- No constraint on the clock readings. -/
def anyClock : PomodoroTimer → Event → Int → Prop :=
  fun _ _ _ => True

/-- Whether the stored snapshot, if there is one, was written at or before
clock reading `now`. -/
def storedNotAfter (t : PomodoroTimer) (now : Int) : Bool :=
  match t.localStorage with
  | Storage.saved state => decide (state.lastUpdate ≤ now)
  | _ => true

/-- The clock reading of a reconciliation (`reload`, `visible`) is not earlier
than the `lastUpdate` of the stored snapshot; other events are unconstrained. -/
def clockNotBehind : PomodoroTimer → Event → Int → Prop :=
  fun t e now => (e = Event.reload ∨ e = Event.visible) → storedNotAfter t now = true

/-- A page reloaded at clock reading 10000 after a day was started at 0, its
countdown started at 0 and one tick at 1000. -/
def reloadedExample : PomodoroTimer :=
  (construct (tick (start (startDay (fresh Storage.missing) 0) 0) 1000).localStorage
    10000).getD (fresh Storage.missing)

/-- A page reloaded at clock reading 0 after a day and its countdown were
started at clock reading 5000. -/
def clockBehindExample : PomodoroTimer :=
  (construct (start (startDay (fresh Storage.missing) 5000) 5000).localStorage
    0).getD (fresh Storage.missing)

/-- The countdown bound, together with what keeps it true across
reconciliations: the stored snapshot satisfies the bound and carries the
in-memory `totalTime`. -/
def TimeBounded (t : PomodoroTimer) : Prop :=
  0 ≤ t.timeRemaining ∧ t.timeRemaining ≤ t.totalTime ∧
    ∀ state, t.localStorage = Storage.saved state →
      0 ≤ state.timeRemaining ∧ state.timeRemaining ≤ state.totalTime ∧
        state.totalTime = t.totalTime

/-- A day with five completed focus sessions and the four breaks between
them (nine completions after `startDay`). -/
def fiveFocusDay : PomodoroTimer :=
  completions (startDay (fresh Storage.missing) 0) [0, 0, 0, 0, 0, 0, 0, 0, 0]

/-- A stopped snapshot whose stored threshold is `n`. -/
def storedThreshold (n : Option Int) : Snapshot :=
  { runningFocus 0 with isRunning := false, sessionsBeforeLongBreak := n }

/-- An active day in Focus mode with auto-progress switched on in the
settings. -/
def autoProgressDay : PomodoroTimer :=
  startDay (saveSettings (fresh Storage.missing) (some 4) true 0) 0

/-- Consecutive calls of `tick`, the i-th at time `nows[i]`. -/
def ticks (t : PomodoroTimer) (nows : List Int) : PomodoroTimer :=
  nows.foldl tick t

/-- How many of the consecutive completions run from `t` at the times `nows`
complete an interval of mode `m` (the mode the timer is in when the
completion is handled). -/
def completionsOf (m : Mode) (t : PomodoroTimer) : List Int → Nat
  | [] => 0
  | now :: rest =>
    (if t.currentMode = m then 1 else 0) + completionsOf m (onTimerComplete t now) rest

/-- The events of the two reconciliation paths. -/
def isReconciliation (e : Event) : Bool :=
  match e with
  | Event.reload => true
  | Event.visible => true
  | _ => false

/-- Every event except the reconciliations, at any clock reading. -/
def noReconciliation : PomodoroTimer → Event → Int → Prop :=
  fun _ e _ => isReconciliation e = false

/-- Whether event `e` keeps the counter of `t` within the threshold: only an
accepted `saveSettings` can fail, when its value is below the current
`sessionsSinceLastLongBreak`, or equal to it while a focus interval or a
short break is under way (the next focus completion would then pass it). -/
def settingCoversCounter (t : PomodoroTimer) (e : Event) : Bool :=
  match e with
  | Event.saveSettings (some n) _ =>
    if n ≥ 1 ∧ n ≤ 10 then
      decide (t.sessionsSinceLastLongBreak ≤ n) &&
        (if t.currentMode = Mode.focus ∨ t.currentMode = Mode.shortBreak then
          decide (t.sessionsSinceLastLongBreak < n)
        else true)
    else true
  | _ => true

/-- No reconciliation, and no `saveSettings` whose threshold the counter has
already reached. -/
def thresholdCoversCounter : PomodoroTimer → Event → Int → Prop :=
  fun t e _ => isReconciliation e = false ∧ settingCoversCounter t e = true

/-- The long-break counter stays within the threshold, strictly below it
while a focus interval or a short break is under way. -/
def ProgressInRange (t : PomodoroTimer) : Prop :=
  1 ≤ t.SESSIONS_BEFORE_LONG_BREAK ∧
    0 ≤ t.sessionsSinceLastLongBreak ∧
    t.sessionsSinceLastLongBreak ≤ t.SESSIONS_BEFORE_LONG_BREAK ∧
    (t.currentMode = Mode.focus ∨ t.currentMode = Mode.shortBreak →
      t.sessionsSinceLastLongBreak < t.SESSIONS_BEFORE_LONG_BREAK)

/-- A running countdown on which the summary's "Start New Day" is pressed:
`startDay`, `start`, `startNewDay`. -/
def newDayWhileRunning : PomodoroTimer :=
  startNewDay (start (startDay (fresh Storage.missing) 0) 0) 0

/-- Three focus sessions into a day with threshold 4, the threshold is then
saved as 2. -/
def thresholdLowered : PomodoroTimer :=
  saveSettings (completions (startDay (fresh Storage.missing) 0) [0, 0, 0, 0, 0]) (some 2)
    false 0

/-- Three focus sessions into a day with threshold 4 (a short break is under
way), the threshold is saved as 3, equal to the counter, and the break and the
next focus interval complete. -/
def thresholdMet : PomodoroTimer :=
  completions
    (saveSettings (completions (startDay (fresh Storage.missing) 0) [0, 0, 0, 0, 0]) (some 3)
      false 0)
    [0, 0]

/-- One focus session into a day with threshold 4, the threshold is lowered
to 2 during the short break, and the break and the second focus interval
complete. -/
def loweredInTime : PomodoroTimer :=
  completions
    (saveSettings (completions (startDay (fresh Storage.missing) 0) [0]) (some 2) false 0)
    [0, 0]

/-- A paused break with 200 seconds left in a day with threshold 6 and
auto-progress on. -/
def pausedBreak : PomodoroTimer :=
  { fresh Storage.missing with
    SESSIONS_BEFORE_LONG_BREAK := 6
    timeRemaining := 200
    totalTime := SHORT_BREAK
    currentMode := Mode.shortBreak
    autoProgress := true
    dayActive := true
    dayStartTime := some 7
    completedFocusSessions := 2
    completedShortBreaks := 1
    sessionsSinceLastLongBreak := 2 }

/-- The mode of the interval that event `e`, arriving in state `t` at clock
reading `now`, completes: the mode `onTimerComplete` finds when the handler of
`e` calls it (directly, from `tick` at app.js 268, from `loadState` at 474 or
from `syncTimeFromStorage` at 514); `none` when the handler does not call it. -/
def completionMode (t : PomodoroTimer) (e : Event) (now : Int) : Option Mode :=
  match e with
  | Event.complete => some t.currentMode
  | Event.tick => if t.timeRemaining > 0 then none else some t.currentMode
  | Event.visible =>
    if t.isRunning then
      match t.localStorage with
      | Storage.saved state =>
        if max 0 (state.timeRemaining - timeElapsed now state) = 0 then some t.currentMode
        else none
      | _ => none
    else none
  | Event.reload =>
    match t.localStorage with
    | Storage.saved state =>
      if state.isRunning then
        if max 0 (state.timeRemaining - timeElapsed now state) = 0 then some state.currentMode
        else none
      else none
    | _ => none
  | _ => none

/-- The state after the events of `trace` happen in order, each at its own
clock reading; `none` when one of them has no outcome (see `step`). -/
def run (t : PomodoroTimer) : List (Event × Int) → Option PomodoroTimer
  | [] => some t
  | (e, now) :: rest =>
    match step t e now with
    | some t' => run t' rest
    | none => none

/-- How many events of `trace`, run from `t`, complete an interval of mode
`m`. -/
def completedIn (m : Mode) (t : PomodoroTimer) : List (Event × Int) → Nat
  | [] => 0
  | (e, now) :: rest =>
    (if completionMode t e now = some m then 1 else 0) +
      match step t e now with
      | some t' => completedIn m t' rest
      | none => 0

/-- The two events that begin a day anew and zero its counters. -/
def restartsDay (e : Event) : Bool :=
  match e with
  | Event.startDay => true
  | Event.startNewDay => true
  | _ => false

/-- The storage entry is a snapshot holding the three completed counters of
the in-memory state. -/
def CountersStored (t : PomodoroTimer) : Prop :=
  ∃ state, t.localStorage = Storage.saved state ∧
    state.completedFocusSessions = t.completedFocusSessions ∧
    state.completedShortBreaks = t.completedShortBreaks ∧
    state.completedLongBreaks = t.completedLongBreaks

/-- A day with the countdown started, ticked, paused and reset, a settings
change, a focus completion, the automatic start it schedules, a short-break
completion, a page reload, a second focus completion and the end of the
day. -/
def mixedDay : List (Event × Int) :=
  [(Event.start, 0), (Event.tick, 1000), (Event.pause, 1500), (Event.reset, 1600),
    (Event.saveSettings (some 5) true, 1700), (Event.complete, 2000),
    (Event.autoStart, 3000), (Event.complete, 4000), (Event.reload, 5000),
    (Event.complete, 6000), (Event.endDay, 7000)]

/-- The state at the end of `mixedDay`, run from a day started at 0. -/
def mixedDayEnd : PomodoroTimer :=
  (run (startDay (fresh Storage.missing) 0) mixedDay).getD (fresh Storage.missing)

/-! # Theorems -/

/-! ## Field-by-field effect of a completion -/

theorem onTimerComplete_SESSIONS_BEFORE_LONG_BREAK (t : PomodoroTimer) (now : Int) :
    (onTimerComplete t now).SESSIONS_BEFORE_LONG_BREAK = t.SESSIONS_BEFORE_LONG_BREAK := by
  unfold onTimerComplete pause saveState switchMode
  cases hm : t.currentMode <;> cases hr : t.isRunning <;> simp [hm, hr] <;>
    split <;> simp <;> split <;> simp

theorem onTimerComplete_currentMode (t : PomodoroTimer) (now : Int) :
    (onTimerComplete t now).currentMode =
      match t.currentMode with
      | Mode.focus =>
        if t.sessionsSinceLastLongBreak + 1 ≥ t.SESSIONS_BEFORE_LONG_BREAK then Mode.longBreak
        else Mode.shortBreak
      | Mode.shortBreak => Mode.focus
      | Mode.longBreak => Mode.focus
      | Mode.ready => Mode.ready := by
  unfold onTimerComplete pause saveState switchMode
  cases hm : t.currentMode <;> cases hr : t.isRunning <;> simp [hm, hr] <;>
    split <;> simp <;> split <;> simp

theorem onTimerComplete_sessionsSinceLastLongBreak (t : PomodoroTimer) (now : Int) :
    (onTimerComplete t now).sessionsSinceLastLongBreak =
      match t.currentMode with
      | Mode.focus => t.sessionsSinceLastLongBreak + 1
      | Mode.longBreak => 0
      | _ => t.sessionsSinceLastLongBreak := by
  unfold onTimerComplete pause saveState switchMode
  cases hm : t.currentMode <;> cases hr : t.isRunning <;> simp [hm, hr] <;>
    split <;> simp <;> split <;> simp

theorem onTimerComplete_completedFocusSessions (t : PomodoroTimer) (now : Int) :
    (onTimerComplete t now).completedFocusSessions =
      if t.currentMode = Mode.focus then t.completedFocusSessions + 1
      else t.completedFocusSessions := by
  unfold onTimerComplete pause saveState switchMode
  cases hm : t.currentMode <;> cases hr : t.isRunning <;> simp [hm, hr] <;>
    split <;> simp <;> split <;> simp

theorem onTimerComplete_completedShortBreaks (t : PomodoroTimer) (now : Int) :
    (onTimerComplete t now).completedShortBreaks =
      if t.currentMode = Mode.shortBreak then t.completedShortBreaks + 1
      else t.completedShortBreaks := by
  unfold onTimerComplete pause saveState switchMode
  cases hm : t.currentMode <;> cases hr : t.isRunning <;> simp [hm, hr] <;>
    split <;> simp <;> split <;> simp

theorem onTimerComplete_completedLongBreaks (t : PomodoroTimer) (now : Int) :
    (onTimerComplete t now).completedLongBreaks =
      if t.currentMode = Mode.longBreak then t.completedLongBreaks + 1
      else t.completedLongBreaks := by
  unfold onTimerComplete pause saveState switchMode
  cases hm : t.currentMode <;> cases hr : t.isRunning <;> simp [hm, hr] <;>
    split <;> simp <;> split <;> simp

theorem completions_cons (t : PomodoroTimer) (now : Int) (nows : List Int) :
    completions t (now :: nows) = completions (onTimerComplete t now) nows := rfl

theorem completions_append (t : PomodoroTimer) (xs ys : List Int) :
    completions t (xs ++ ys) = completions (completions t xs) ys := by
  simp [completions, List.foldl_append]

/-! ## The cadence of a day driven by completions -/

theorem succ_mod_cases (j s : Nat) (hs : 1 ≤ s) :
    (j % s + 1 = s ∧ (j + 1) % s = 0) ∨ (j % s + 1 < s ∧ (j + 1) % s = j % s + 1) := by
  have hlt : j % s < s := Nat.mod_lt j (by omega)
  have hdiv : s * (j / s) + j % s = j := Nat.div_add_mod j s
  by_cases h : j % s + 1 = s
  · left
    refine ⟨h, ?_⟩
    have : j + 1 = s * (j / s + 1) := by
      rw [Nat.mul_add, Nat.mul_one]; omega
    rw [this]; exact Nat.mul_mod_right _ _
  · right
    have hlt2 : j % s + 1 < s := by omega
    refine ⟨hlt2, ?_⟩
    have : j + 1 = s * (j / s) + (j % s + 1) := by omega
    rw [this, Nat.mul_add_mod, Nat.mod_eq_of_lt hlt2]

theorem CadenceInv_startDay (t0 : PomodoroTimer) (s : Nat) (now : Int)
    (hs : t0.SESSIONS_BEFORE_LONG_BREAK = (s : Int)) : CadenceInv s 0 (startDay t0 now) := by
  refine ⟨?_, ?_, ?_, ?_⟩
  · simpa [startDay, saveState, switchMode] using hs
  · simp [startDay, saveState, switchMode]
  · intro _; simp [startDay, saveState, switchMode]
  · intro h; simp at h

theorem CadenceInv_step (s n : Nat) (t : PomodoroTimer) (now : Int) (hs : 1 ≤ s)
    (h : CadenceInv s n t) : CadenceInv s (n + 1) (onTimerComplete t now) := by
  obtain ⟨hS, hF, hE, hO⟩ := h
  rcases Nat.mod_two_eq_zero_or_one n with hn | hn
  · obtain ⟨hm, hsince⟩ := hE hn
    have h1 : (n + 1) / 2 = n / 2 := by omega
    have h2 : (n + 1 + 1) / 2 = n / 2 + 1 := by omega
    refine ⟨?_, ?_, ?_, ?_⟩
    · rw [onTimerComplete_SESSIONS_BEFORE_LONG_BREAK, hS]
    · rw [onTimerComplete_completedFocusSessions, hm, hF, h1, h2]; simp
    · intro h'; omega
    · intro _
      rw [onTimerComplete_sessionsSinceLastLongBreak, onTimerComplete_currentMode, hm, hsince,
        hS, h1]
      refine ⟨by simp, ?_⟩
      simp only [ge_iff_le]
      by_cases hc : s ≤ n / 2 % s + 1
      · rw [if_pos hc, if_pos (by exact_mod_cast hc)]
      · rw [if_neg hc, if_neg (by intro hc2; exact hc (by exact_mod_cast hc2))]
  · obtain ⟨hsince, hm⟩ := hO hn
    have h1 : (n + 1) / 2 = n / 2 + 1 := by omega
    have h2 : (n + 1 + 1) / 2 = n / 2 + 1 := by omega
    refine ⟨?_, ?_, ?_, ?_⟩
    · rw [onTimerComplete_SESSIONS_BEFORE_LONG_BREAK, hS]
    · rw [onTimerComplete_completedFocusSessions, hF, h1, h2]
      have : t.currentMode ≠ Mode.focus := by rw [hm]; split <;> simp
      simp [this]
    · intro _
      rw [onTimerComplete_sessionsSinceLastLongBreak, onTimerComplete_currentMode, h1]
      rcases succ_mod_cases (n / 2) s hs with ⟨ha, hb⟩ | ⟨ha, hb⟩
      · have hm' : t.currentMode = Mode.longBreak := by rw [hm, if_pos (by omega)]
        rw [hm', hb]; simp
      · have hm' : t.currentMode = Mode.shortBreak := by rw [hm, if_neg (by omega)]
        rw [hm', hb]; simp [hsince]
    · intro h'; omega

theorem CadenceInv_completions (s : Nat) (hs : 1 ≤ s) (nows : List Int) :
    ∀ (n : Nat) (t : PomodoroTimer), CadenceInv s n t →
      CadenceInv s (n + nows.length) (completions t nows) := by
  induction nows with
  | nil => intro n t h; simpa [completions] using h
  | cons a l ih =>
    intro n t h
    rw [completions_cons]
    have := ih (n + 1) (onTimerComplete t a) (CadenceInv_step s n t a hs h)
    simpa [Nat.add_assoc, Nat.add_comm 1] using this

/-- C1. Cadence cycle: from the fresh Ready state (threshold 4), after
`startDay()` and then any number `n` of consecutive completions, the mode is
Focus when `n` is even, LongBreak when `n mod 8 = 7`, and ShortBreak for every
other odd `n`. -/
theorem cadence_cycle (now : Int) (nows : List Int) :
    (completions (startDay (fresh Storage.missing) now) nows).currentMode =
      if nows.length % 2 = 0 then Mode.focus
      else if nows.length % 8 = 7 then Mode.longBreak
      else Mode.shortBreak := by
  have h0 : CadenceInv 4 0 (startDay (fresh Storage.missing) now) :=
    CadenceInv_startDay _ 4 now rfl
  have h := CadenceInv_completions 4 (by decide) nows 0 _ h0
  rw [Nat.zero_add] at h
  obtain ⟨-, -, hE, hO⟩ := h
  rcases Nat.mod_two_eq_zero_or_one nows.length with hn | hn
  · rw [if_pos hn]; exact (hE hn).1
  · rw [if_neg (by omega), (hO hn).2]
    by_cases h7 : nows.length % 8 = 7
    · rw [if_pos h7, if_pos (by omega)]
    · rw [if_neg h7, if_neg (by omega)]

/-- C2 (as stated, refuted). With threshold 4, the 7th completion of a day is
the 4th focus completion, and right after it `sessionsSinceLastLongBreak` is
4, not `4 mod 4 = 0`. -/
theorem counter_remainder_fails :
    (completions (startDay (fresh Storage.missing) 0) [0, 0, 0, 0, 0, 0]).currentMode
        = Mode.focus ∧
      (completions (startDay (fresh Storage.missing) 0)
        [0, 0, 0, 0, 0, 0, 0]).completedFocusSessions = 4 ∧
      (completions (startDay (fresh Storage.missing) 0)
        [0, 0, 0, 0, 0, 0, 0]).sessionsSinceLastLongBreak ≠ ((4 % 4 : Nat) : Int) := by
  decide

/-- C2 (amended). For a threshold `s` in `[1,10]` held fixed and `K ≥ 1`, in a
day driven only by completions after `startDay()`, the `(2K-1)`-th completion
is the `K`-th focus completion, and right after it
`sessionsSinceLastLongBreak` is `K mod s` when `s` does not divide `K` and is
`s` when it does; the counter is 0 right after each long-break completion. -/
theorem counter_after_kth_focus (t0 : PomodoroTimer) (s K : Nat) (now : Int)
    (nows : List Int) (hs : t0.SESSIONS_BEFORE_LONG_BREAK = (s : Int)) (h1 : 1 ≤ s)
    (_h10 : s ≤ 10) (hK : 1 ≤ K) (hlen : nows.length = 2 * K - 1) :
    (completions (startDay t0 now) nows.dropLast).currentMode = Mode.focus ∧
      (completions (startDay t0 now) nows).completedFocusSessions = (K : Int) ∧
      (completions (startDay t0 now) nows).sessionsSinceLastLongBreak
        = (((if K % s = 0 then s else K % s) : Nat) : Int) ∧
      ∀ (more : List Int) (now' : Int),
        (completions (startDay t0 now) more).currentMode = Mode.longBreak →
        (onTimerComplete (completions (startDay t0 now) more) now').sessionsSinceLastLongBreak
          = 0 := by
  have h0 : CadenceInv s 0 (startDay t0 now) := CadenceInv_startDay t0 s now hs
  refine ⟨?_, ?_, ?_, ?_⟩
  · have h := CadenceInv_completions s h1 nows.dropLast 0 _ h0
    rw [Nat.zero_add, List.length_dropLast, hlen] at h
    exact (h.2.2.1 (by omega)).1
  · have h := CadenceInv_completions s h1 nows 0 _ h0
    rw [Nat.zero_add, hlen] at h
    rw [h.2.1]
    have : (2 * K - 1 + 1) / 2 = K := by omega
    rw [this]
  · have h := CadenceInv_completions s h1 nows 0 _ h0
    rw [Nat.zero_add, hlen] at h
    rw [(h.2.2.2 (by omega)).1]
    have hj : (2 * K - 1) / 2 = K - 1 := by omega
    rw [hj]
    have hK' : K - 1 + 1 = K := by omega
    rcases succ_mod_cases (K - 1) s h1 with ⟨ha, hb⟩ | ⟨ha, hb⟩
    · rw [hK'] at hb
      rw [if_pos hb, ha]
    · rw [hK'] at hb
      rw [if_neg (by omega), hb]
  · intro more now' hm
    rw [onTimerComplete_sessionsSinceLastLongBreak, hm]

/-- Witness for C2 (amended): threshold 4, the 4th focus completion. -/
theorem counter_after_kth_focus_witness :
    (fresh Storage.missing).SESSIONS_BEFORE_LONG_BREAK = ((4 : Nat) : Int) ∧
      (completions (startDay (fresh Storage.missing) 0)
        [0, 0, 0, 0, 0, 0, 0]).sessionsSinceLastLongBreak
        = (((if 4 % 4 = 0 then 4 else 4 % 4) : Nat) : Int) :=
  ⟨rfl, (counter_after_kth_focus (fresh Storage.missing) 4 4 0 [0, 0, 0, 0, 0, 0, 0] rfl
    (by decide) (by decide) (by decide) rfl).2.2.1⟩

/-! ## Reconciliation against a stored snapshot -/

theorem restoreFields_core (t : PomodoroTimer) (state : Snapshot) :
    (restoreFields t state).currentMode = state.currentMode ∧
      (restoreFields t state).dayActive = state.dayActive ∧
      (restoreFields t state).dayStartTime = state.dayStartTime ∧
      (restoreFields t state).completedFocusSessions = state.completedFocusSessions ∧
      (restoreFields t state).completedShortBreaks = state.completedShortBreaks ∧
      (restoreFields t state).completedLongBreaks = state.completedLongBreaks ∧
      (restoreFields t state).sessionsSinceLastLongBreak = state.sessionsSinceLastLongBreak ∧
      (restoreFields t state).totalTime = state.totalTime ∧
      (restoreFields t state).isRunning = t.isRunning ∧
      (restoreFields t state).timerInterval = t.timerInterval ∧
      (restoreFields t state).localStorage = t.localStorage ∧
      (restoreFields t state).pendingAutoStarts = t.pendingAutoStarts := by
  unfold restoreFields
  cases state.sessionsBeforeLongBreak <;> cases state.autoProgress <;> simp <;>
    split <;> simp

theorem restoreFields_SESSIONS_BEFORE_LONG_BREAK (t : PomodoroTimer) (state : Snapshot) :
    (restoreFields t state).SESSIONS_BEFORE_LONG_BREAK =
      match state.sessionsBeforeLongBreak with
      | some n => if n ≠ 0 then n else t.SESSIONS_BEFORE_LONG_BREAK
      | none => t.SESSIONS_BEFORE_LONG_BREAK := by
  unfold restoreFields
  cases state.sessionsBeforeLongBreak <;> cases state.autoProgress <;> simp <;>
    split <;> simp_all

/-- C3. Reconciliation fires exactly one completion: for a snapshot with
`isRunning = true`, a mode other than Ready and remaining time `r`, at any
current time at least `r` whole seconds after `lastUpdate`, `loadState` on a
fresh engine returns exactly one `onTimerComplete` of the restored state with
remainder 0, so the counters and the mode change as that single completion
changes them; `syncTimeFromStorage` does the same on a running in-memory
timer. -/
theorem reconcile_fires_one_completion (state : Snapshot) (now : Int)
    (hrun : state.isRunning = true) (_hmode : state.currentMode ≠ Mode.ready)
    (he : state.timeRemaining ≤ timeElapsed now state) :
    construct (Storage.saved state) now
        = some (onTimerComplete
            { restoreFields (fresh (Storage.saved state)) state with timeRemaining := 0 } now) ∧
      (∃ t', construct (Storage.saved state) now = some t' ∧
        t'.completedFocusSessions
          = state.completedFocusSessions + (if state.currentMode = Mode.focus then 1 else 0) ∧
        t'.completedShortBreaks
          = state.completedShortBreaks + (if state.currentMode = Mode.shortBreak then 1 else 0) ∧
        t'.completedLongBreaks
          = state.completedLongBreaks + (if state.currentMode = Mode.longBreak then 1 else 0) ∧
        t'.sessionsSinceLastLongBreak
          = (match state.currentMode with
             | Mode.focus => state.sessionsSinceLastLongBreak + 1
             | Mode.longBreak => 0
             | _ => state.sessionsSinceLastLongBreak) ∧
        t'.currentMode
          = (match state.currentMode with
             | Mode.focus =>
               if state.sessionsSinceLastLongBreak + 1 ≥
                   (restoreFields (fresh (Storage.saved state)) state).SESSIONS_BEFORE_LONG_BREAK
               then Mode.longBreak else Mode.shortBreak
             | Mode.shortBreak => Mode.focus
             | Mode.longBreak => Mode.focus
             | Mode.ready => Mode.ready)) ∧
      (∀ t : PomodoroTimer, t.isRunning = true → t.localStorage = Storage.saved state →
        syncTimeFromStorage t now = some (onTimerComplete { t with timeRemaining := 0 } now)) := by
  have hmax : max 0 (state.timeRemaining - timeElapsed now state) = 0 :=
    max_eq_left (by omega)
  have hload : construct (Storage.saved state) now
      = some (onTimerComplete
          { restoreFields (fresh (Storage.saved state)) state with timeRemaining := 0 } now) := by
    simp [construct, loadState, fresh, hrun, hmax]
  obtain ⟨r1, -, -, r4, r5, r6, r7, -⟩ := restoreFields_core (fresh (Storage.saved state)) state
  refine ⟨hload, ⟨_, hload, ?_, ?_, ?_, ?_, ?_⟩, ?_⟩
  · rw [onTimerComplete_completedFocusSessions]
    simp only [r1, r4]
    split <;> simp
  · rw [onTimerComplete_completedShortBreaks]
    simp only [r1, r5]
    split <;> simp
  · rw [onTimerComplete_completedLongBreaks]
    simp only [r1, r6]
    split <;> simp
  · rw [onTimerComplete_sessionsSinceLastLongBreak]
    simp only [r1, r7]
  · rw [onTimerComplete_currentMode]
    simp only [r1, r7]
  · intro t ht hst
    simp [syncTimeFromStorage, hst, ht, hmax]

/-- Witness for C3: 100 seconds left, reconciled 150 seconds later. -/
theorem reconcile_fires_one_completion_witness :
    ∃ t', construct (Storage.saved (runningFocus 0)) 150000 = some t' ∧
      t'.completedFocusSessions = 4 ∧ t'.currentMode = Mode.longBreak :=
  have h := (reconcile_fires_one_completion (runningFocus 0) 150000 rfl (by decide)
    (by decide)).1
  ⟨_, h, by decide, by decide⟩

/-- C4. Reconciliation advances time: for a snapshot with `isRunning = true`,
`dayActive = true` and remaining time `r`, at a current time `e` whole seconds
after `lastUpdate` with `0 ≤ e < r`, `loadState` on a fresh engine yields
`timeRemaining = r - e` and a running countdown, with mode, `totalTime` and
all counters equal to the snapshot's. -/
theorem reconcile_advances_time (state : Snapshot) (now : Int)
    (hrun : state.isRunning = true) (hday : state.dayActive = true)
    (_h0 : 0 ≤ timeElapsed now state) (hlt : timeElapsed now state < state.timeRemaining) :
    ∃ t', construct (Storage.saved state) now = some t' ∧
      t'.timeRemaining = state.timeRemaining - timeElapsed now state ∧
      t'.isRunning = true ∧
      t'.timerInterval = true ∧
      t'.currentMode = state.currentMode ∧
      t'.totalTime = state.totalTime ∧
      t'.dayActive = true ∧
      t'.completedFocusSessions = state.completedFocusSessions ∧
      t'.completedShortBreaks = state.completedShortBreaks ∧
      t'.completedLongBreaks = state.completedLongBreaks ∧
      t'.sessionsSinceLastLongBreak = state.sessionsSinceLastLongBreak := by
  have hmax : max 0 (state.timeRemaining - timeElapsed now state)
      = state.timeRemaining - timeElapsed now state := max_eq_right (by omega)
  have hne : ¬ (state.timeRemaining - timeElapsed now state = 0) := by omega
  obtain ⟨r1, r2, -, r4, r5, r6, r7, r8, r9, -⟩ :=
    restoreFields_core (fresh (Storage.saved state)) state
  have hr9 : (restoreFields (fresh (Storage.saved state)) state).isRunning = false := by
    rw [r9]; rfl
  have hload : construct (Storage.saved state) now
      = some (start { restoreFields (fresh (Storage.saved state)) state with
          timeRemaining := state.timeRemaining - timeElapsed now state } now) := by
    simp [construct, loadState, fresh, hrun, hmax, hne]
  refine ⟨_, hload, ?_⟩
  simp [start, saveState, r1, r2, r4, r5, r6, r7, r8, hr9, hday]

/-- Witness for C4: the spec's case, 100 seconds left and 30 elapsed give 70. -/
theorem reconcile_advances_time_witness :
    ∃ t', construct (Storage.saved (runningFocus 0)) 30000 = some t' ∧
      t'.timeRemaining = 70 ∧ t'.isRunning = true :=
  have h := reconcile_advances_time (runningFocus 0) 30000 rfl rfl (by decide) (by decide)
  h.imp fun _ hx => ⟨hx.1, hx.2.1.trans (by decide), hx.2.2.1⟩

/-- C5 (as stated, refuted). A running snapshot with 100 seconds left whose
`lastUpdate` is 5 seconds ahead of the clock is reconciled by `loadState` to
105 seconds, not 100; `syncTimeFromStorage` on a timer started at time 5000
and resynchronised at time 0 goes from 60 to 65 seconds. -/
theorem clock_anomaly_not_clamped :
    (runningFocus 5000).isRunning = true ∧
      (0 : Int) < (runningFocus 5000).lastUpdate ∧
      (construct (Storage.saved (runningFocus 5000)) 0).map PomodoroTimer.timeRemaining
        = some 105 ∧
      (start (startDay (fresh Storage.missing) 5000) 5000).timeRemaining = 60 ∧
      (syncTimeFromStorage (start (startDay (fresh Storage.missing) 5000) 5000) 0).map
        PomodoroTimer.timeRemaining = some 65 := by
  decide

/-- C5 (amended). For a running snapshot with `timeRemaining ≥ 0` whose
`lastUpdate` is later than the current time, the elapsed time is negative and
is not clamped: `loadState` and `syncTimeFromStorage` yield
`timeRemaining - elapsed`, which is strictly larger than the stored value (and
so not negative). -/
theorem negative_elapsed_adds_time (state : Snapshot) (now : Int)
    (hrun : state.isRunning = true) (h0 : 0 ≤ state.timeRemaining)
    (hlater : now < state.lastUpdate) :
    timeElapsed now state < 0 ∧
      (∃ t', construct (Storage.saved state) now = some t' ∧
        t'.timeRemaining = state.timeRemaining - timeElapsed now state ∧
        state.timeRemaining < t'.timeRemaining) ∧
      (∀ t : PomodoroTimer, t.isRunning = true → t.localStorage = Storage.saved state →
        ∃ t', syncTimeFromStorage t now = some t' ∧
          t'.timeRemaining = state.timeRemaining - timeElapsed now state ∧
          state.timeRemaining < t'.timeRemaining) := by
  have hneg : timeElapsed now state < 0 := by
    unfold timeElapsed; omega
  have hmax : max 0 (state.timeRemaining - timeElapsed now state)
      = state.timeRemaining - timeElapsed now state := max_eq_right (by omega)
  have hne : ¬ (state.timeRemaining - timeElapsed now state = 0) := by omega
  refine ⟨hneg, ?_, ?_⟩
  · have hload : construct (Storage.saved state) now
        = some (start { restoreFields (fresh (Storage.saved state)) state with
            timeRemaining := state.timeRemaining - timeElapsed now state } now) := by
      simp [construct, loadState, fresh, hrun, hmax, hne]
    have htr : (start { restoreFields (fresh (Storage.saved state)) state with
        timeRemaining := state.timeRemaining - timeElapsed now state } now).timeRemaining
        = state.timeRemaining - timeElapsed now state := by
      unfold start saveState
      split
      · rfl
      · split <;> rfl
    exact ⟨_, hload, htr, by rw [htr]; omega⟩
  · intro t ht hst
    have hsync : syncTimeFromStorage t now
        = some { t with timeRemaining := state.timeRemaining - timeElapsed now state } := by
      simp [syncTimeFromStorage, hst, ht, hmax, hne]
    exact ⟨_, hsync, rfl, by simp only; omega⟩

/-- Witness for C5 (amended): the stored clock is 5 seconds ahead. -/
theorem negative_elapsed_adds_time_witness :
    timeElapsed 0 (runningFocus 5000) < 0 ∧
      ∃ t', construct (Storage.saved (runningFocus 5000)) 0 = some t' ∧
        t'.timeRemaining = 105 :=
  have h := negative_elapsed_adds_time (runningFocus 5000) 0 rfl (by decide) (by decide)
  ⟨h.1, h.2.1.imp fun _ hx => ⟨hx.1, hx.2.1.trans (by decide)⟩⟩

/-! ## The countdown bound -/

theorem TimeBounded_saveState (t : PomodoroTimer) (now : Int)
    (h0 : 0 ≤ t.timeRemaining) (h1 : t.timeRemaining ≤ t.totalTime) :
    TimeBounded (saveState t now) := by
  refine ⟨h0, h1, ?_⟩
  intro state hst
  simp only [saveState, Storage.saved.injEq] at hst
  subst hst
  exact ⟨h0, h1, rfl⟩

theorem TimeBounded_of_eq (t t' : PomodoroTimer) (h : TimeBounded t)
    (h1 : t'.timeRemaining = t.timeRemaining) (h2 : t'.totalTime = t.totalTime)
    (h3 : t'.localStorage = t.localStorage) : TimeBounded t' := by
  unfold TimeBounded at *
  rw [h1, h2, h3]; exact h

theorem TimeBounded_pause (t : PomodoroTimer) (now : Int) (h : TimeBounded t) :
    TimeBounded (pause t now) := by
  unfold pause
  split
  · exact TimeBounded_saveState _ now h.1 h.2.1
  · exact h

theorem TimeBounded_start (t : PomodoroTimer) (now : Int) (h : TimeBounded t) :
    TimeBounded (start t now) := by
  unfold start
  split
  · exact h
  · split
    · exact TimeBounded_saveState _ now h.1 h.2.1
    · exact h

theorem TimeBounded_switchMode_saveState (t : PomodoroTimer) (mode : Mode) (now : Int) :
    TimeBounded (saveState (switchMode t mode) now) := by
  apply TimeBounded_saveState <;> cases mode <;> simp [switchMode, FOCUS_TIME, SHORT_BREAK, LONG_BREAK]

theorem pause_times (t : PomodoroTimer) (now : Int) :
    (pause t now).timeRemaining = t.timeRemaining ∧ (pause t now).totalTime = t.totalTime := by
  unfold pause saveState
  split <;> exact ⟨rfl, rfl⟩

theorem TimeBounded_onTimerComplete (t : PomodoroTimer) (now : Int) (h : TimeBounded t) :
    TimeBounded (onTimerComplete t now) := by
  obtain ⟨p1, p2⟩ := pause_times t now
  have key : ∀ t2 : PomodoroTimer, 0 ≤ t2.timeRemaining → t2.timeRemaining ≤ t2.totalTime →
      TimeBounded (if (saveState t2 now).autoProgress && (saveState t2 now).dayActive then
        { saveState t2 now with pendingAutoStarts := (saveState t2 now).pendingAutoStarts + 1 }
        else saveState t2 now) := by
    intro t2 h0 h1
    split
    · exact TimeBounded_of_eq (saveState t2 now) _ (TimeBounded_saveState t2 now h0 h1)
        rfl rfl rfl
    · exact TimeBounded_saveState t2 now h0 h1
  unfold onTimerComplete
  simp only []
  cases hm : (pause t now).currentMode
  · simp only []
    exact key _ (by rw [p1]; exact h.1) (by rw [p1, p2]; exact h.2.1)
  · simp only []
    split <;> exact key _ (by simp [switchMode, LONG_BREAK, SHORT_BREAK])
      (by simp [switchMode])
  · simp only []
    exact key _ (by simp [switchMode, FOCUS_TIME]) (by simp [switchMode])
  · simp only []
    exact key _ (by simp [switchMode, FOCUS_TIME]) (by simp [switchMode])

theorem TimeBounded_construct (store : Storage) (now : Int) (t' : PomodoroTimer)
    (hstore : ∀ state, store = Storage.saved state →
      0 ≤ state.timeRemaining ∧ state.timeRemaining ≤ state.totalTime ∧
        state.lastUpdate ≤ now)
    (h : construct store now = some t') : TimeBounded t' := by
  unfold construct loadState at h
  cases store with
  | missing =>
    simp only [fresh, Option.some.injEq] at h
    subst h
    refine ⟨by simp [FOCUS_TIME], by simp, ?_⟩
    intro state hst; simp at hst
  | corrupt => simp [fresh] at h
  | saved state =>
    obtain ⟨b0, b1, b2⟩ := hstore state rfl
    have he : 0 ≤ timeElapsed now state := by unfold timeElapsed; omega
    obtain ⟨-, -, -, -, -, -, -, r8, -, -, r11, -⟩ :=
      restoreFields_core (fresh (Storage.saved state)) state
    have hfs : (fresh (Storage.saved state)).localStorage = Storage.saved state := rfl
    simp only [hfs] at h
    have base : ∀ v : Int, 0 ≤ v → v ≤ state.timeRemaining →
        TimeBounded { restoreFields (fresh (Storage.saved state)) state with
          timeRemaining := v } := by
      intro v hv0 hv1
      refine ⟨hv0, ?_, ?_⟩
      · simp only [r8]; omega
      · intro st hst
        simp only [r11, hfs, Storage.saved.injEq] at hst
        subst hst
        exact ⟨b0, b1, by simp only [r8]⟩
    split at h
    · have hmax0 : 0 ≤ max 0 (state.timeRemaining - timeElapsed now state) :=
        le_max_left _ _
      have hmax1 : max 0 (state.timeRemaining - timeElapsed now state)
          ≤ state.timeRemaining := max_le b0 (by omega)
      split at h
      · simp only [Option.some.injEq] at h
        subst h
        exact TimeBounded_onTimerComplete _ now (base _ hmax0 hmax1)
      · simp only [Option.some.injEq] at h
        subst h
        exact TimeBounded_start _ now (base _ hmax0 hmax1)
    · simp only [Option.some.injEq] at h
      subst h
      exact base _ b0 (le_refl _)

theorem TimeBounded_syncTimeFromStorage (t : PomodoroTimer) (now : Int) (t' : PomodoroTimer)
    (hb : TimeBounded t)
    (hclock : ∀ state, t.localStorage = Storage.saved state → state.lastUpdate ≤ now)
    (h : syncTimeFromStorage t now = some t') : TimeBounded t' := by
  unfold syncTimeFromStorage at h
  split at h
  · simp only [Option.some.injEq] at h
    subst h; exact hb
  · split at h
    · simp at h
    · simp only [Option.some.injEq] at h
      subst h; exact hb
  · rename_i state hst
    obtain ⟨b0, b1, b2⟩ := hb.2.2 state hst
    have hlu := hclock state hst
    have he : 0 ≤ timeElapsed now state := by unfold timeElapsed; omega
    have hmax0 : 0 ≤ max 0 (state.timeRemaining - timeElapsed now state) :=
      le_max_left _ _
    have hmax1 : max 0 (state.timeRemaining - timeElapsed now state)
        ≤ state.timeRemaining := max_le b0 (by omega)
    have base : TimeBounded { t with
        timeRemaining := max 0 (state.timeRemaining - timeElapsed now state) } := by
      refine ⟨hmax0, ?_, ?_⟩
      · simp only []; omega
      · intro st hst2
        simp only [hst, Storage.saved.injEq] at hst2
        subst hst2
        exact ⟨b0, b1, b2⟩
    split at h
    · simp only [] at h
      split at h
      · simp only [Option.some.injEq] at h
        subst h
        exact TimeBounded_onTimerComplete _ now base
      · simp only [Option.some.injEq] at h
        subst h
        exact base
    · simp only [Option.some.injEq] at h
      subst h; exact hb

theorem storedNotAfter_le (t : PomodoroTimer) (now : Int) (state : Snapshot)
    (h : storedNotAfter t now = true) (hst : t.localStorage = Storage.saved state) :
    state.lastUpdate ≤ now := by
  simpa [storedNotAfter, hst] using h

theorem TimeBounded_step (t t' : PomodoroTimer) (e : Event) (now : Int)
    (hb : TimeBounded t) (hc : clockNotBehind t e now) (h : step t e now = some t') :
    TimeBounded t' := by
  obtain ⟨p1, p2⟩ := pause_times t now
  cases e with
  | startDay =>
    simp only [step, Option.some.injEq] at h
    subst h; exact TimeBounded_switchMode_saveState _ _ _
  | endDay =>
    simp only [step, Option.some.injEq] at h
    subst h
    unfold endDay
    simp only []
    apply TimeBounded_saveState
    · split
      · simp only [p1]; exact hb.1
      · exact hb.1
    · split
      · simp only [p1, p2]; exact hb.2.1
      · exact hb.2.1
  | startNewDay =>
    simp only [step, Option.some.injEq] at h
    subst h; exact TimeBounded_switchMode_saveState _ _ _
  | start =>
    simp only [step, Option.some.injEq] at h
    subst h; exact TimeBounded_start t now hb
  | pause =>
    simp only [step, Option.some.injEq] at h
    subst h; exact TimeBounded_pause t now hb
  | reset =>
    simp only [step, Option.some.injEq] at h
    subst h
    unfold reset
    simp only []
    apply TimeBounded_saveState
    · simp only [p2]; exact le_trans hb.1 hb.2.1
    · exact le_refl _
  | saveSettings newSessions checked =>
    simp only [step, Option.some.injEq] at h
    subst h
    unfold saveSettings
    split
    · split
      · exact TimeBounded_saveState _ now hb.1 hb.2.1
      · exact hb
    · exact hb
  | tick =>
    simp only [step, Option.some.injEq] at h
    subst h
    unfold tick
    split
    · rename_i hpos
      refine ⟨?_, ?_, hb.2.2⟩
      · simp only []; omega
      · have := hb.2.1
        simp only []; omega
    · exact TimeBounded_onTimerComplete t now hb
  | complete =>
    simp only [step, Option.some.injEq] at h
    subst h; exact TimeBounded_onTimerComplete t now hb
  | autoStart =>
    simp only [step] at h
    split at h
    · simp only [Option.some.injEq] at h
      subst h
      exact TimeBounded_start _ now (TimeBounded_of_eq t _ hb rfl rfl rfl)
    · simp at h
  | periodicSave =>
    simp only [step] at h
    split at h
    · simp only [Option.some.injEq] at h
      subst h; exact TimeBounded_saveState t now hb.1 hb.2.1
    · simp only [Option.some.injEq] at h
      subst h; exact hb
  | beforeUnload =>
    simp only [step, Option.some.injEq] at h
    subst h; exact TimeBounded_saveState t now hb.1 hb.2.1
  | reload =>
    simp only [step] at h
    refine TimeBounded_construct t.localStorage now t' ?_ h
    intro state hst
    obtain ⟨b0, b1, -⟩ := hb.2.2 state hst
    exact ⟨b0, b1, storedNotAfter_le t now state (hc (Or.inl rfl)) hst⟩
  | visible =>
    simp only [step] at h
    split at h
    · exact TimeBounded_syncTimeFromStorage t now t' hb
        (storedNotAfter_le t now · (hc (Or.inr rfl))) h
    · simp only [Option.some.injEq] at h
      subst h; exact hb

theorem TimeBounded_fresh : TimeBounded (fresh Storage.missing) := by
  refine ⟨by decide, by decide, ?_⟩
  intro state hst
  simp [fresh] at hst

/-- C6 (as stated, refuted). Starting a day and the countdown at clock reading
5000 and then reloading the page at clock reading 0 (a snapshot written by
`saveState`, a current time earlier than its `lastUpdate`) reaches a state
with `timeRemaining = 65 > totalTime = 60`. -/
theorem monotonic_bound_fails :
    Reachable anyClock clockBehindExample ∧
      clockBehindExample.timeRemaining = 65 ∧ clockBehindExample.totalTime = 60 ∧
      ¬ (0 ≤ clockBehindExample.timeRemaining ∧
        clockBehindExample.timeRemaining ≤ clockBehindExample.totalTime) := by
  have r0 : Reachable anyClock (fresh Storage.missing) := Reachable.init
  have r1 := Reachable.next (fresh Storage.missing) (startDay (fresh Storage.missing) 5000)
    Event.startDay 5000 r0 trivial rfl
  have r2 := Reachable.next _ (start (startDay (fresh Storage.missing) 5000) 5000)
    Event.start 5000 r1 trivial rfl
  have r3 := Reachable.next _ clockBehindExample Event.reload 0 r2 trivial (by decide)
  exact ⟨r3, by decide, by decide, by decide⟩

/-- C6 (amended). In every state reachable from the first page load by any
sequence of startDay, endDay, startNewDay, start, pause, reset, tick,
completion, saveSettings, saves and reconciliations (page reload /
`syncTimeFromStorage` against the snapshot last written by `saveState`) whose
current time is not earlier than that snapshot's `lastUpdate`,
`0 ≤ timeRemaining ≤ totalTime`. -/
theorem monotonic_bound (t : PomodoroTimer) (h : Reachable clockNotBehind t) :
    0 ≤ t.timeRemaining ∧ t.timeRemaining ≤ t.totalTime := by
  have hb : TimeBounded t := by
    induction h with
    | init => exact TimeBounded_fresh
    | next t t' e now _ hc hs ih => exact TimeBounded_step t t' e now ih hc hs
  exact ⟨hb.1, hb.2.1⟩

theorem reloadedExample_reachable : Reachable clockNotBehind reloadedExample := by
  have r0 : Reachable clockNotBehind (fresh Storage.missing) := Reachable.init
  have r1 := Reachable.next (fresh Storage.missing) (startDay (fresh Storage.missing) 0)
    Event.startDay 0 r0 (by unfold clockNotBehind; decide) rfl
  have r2 := Reachable.next _ (start (startDay (fresh Storage.missing) 0) 0)
    Event.start 0 r1 (by unfold clockNotBehind; decide) rfl
  have r3 := Reachable.next _ (tick (start (startDay (fresh Storage.missing) 0) 0) 1000)
    Event.tick 1000 r2 (by unfold clockNotBehind; decide) rfl
  exact Reachable.next _ reloadedExample Event.reload 10000 r3
    (by unfold clockNotBehind; decide) (by decide)

/-- Witness for C6 (amended): a day started at time 0, its countdown started,
ticked once and the page reloaded 10 seconds later is left with 50 of 60
seconds. -/
theorem monotonic_bound_witness :
    Reachable clockNotBehind reloadedExample ∧
      reloadedExample.timeRemaining = 50 ∧
      0 ≤ reloadedExample.timeRemaining ∧
      reloadedExample.timeRemaining ≤ reloadedExample.totalTime :=
  ⟨reloadedExample_reachable, by decide, monotonic_bound reloadedExample
    reloadedExample_reachable⟩

/-! ## Day summary -/

/-- C7 (code at the failing input). After five focus completions `endDay`
reports 5 sessions and `5 * 25 = 125` focus minutes, while the deployed focus
duration `FOCUS_TIME` is 60 seconds, so `5 * (FOCUS_TIME / 60) = 5`. -/
theorem summary_focus_minutes_mismatch :
    (endDay fiveFocusDay 0).2.totalSessions = 5 ∧
      (endDay fiveFocusDay 0).2.message = Message.greatWork ∧
      (endDay fiveFocusDay 0).2.totalFocusMinutes = 125 ∧
      (5 : Int) * (FOCUS_TIME / 60) = 5 ∧
      (endDay fiveFocusDay 0).2.totalFocusMinutes
        ≠ (endDay fiveFocusDay 0).2.totalSessions * (FOCUS_TIME / 60) := by
  decide

/-! ## Configuration -/

/-- C8. Configuration validation on save: a parsed input `n` with
`1 ≤ n ≤ 10` is accepted, `SESSIONS_BEFORE_LONG_BREAK` becomes `n` (the
threshold the very next focus completion compares with) and `autoProgress`
takes the submitted value; an input below 1, above 10 or not a number leaves
the whole state unchanged. -/
theorem saveSettings_validation (t : PomodoroTimer) (checked : Bool) (now : Int) :
    (∀ n : Int, 1 ≤ n → n ≤ 10 →
      saveSettings t (some n) checked now
          = saveState { t with SESSIONS_BEFORE_LONG_BREAK := n, autoProgress := checked } now ∧
        (saveSettings t (some n) checked now).SESSIONS_BEFORE_LONG_BREAK = n ∧
        (saveSettings t (some n) checked now).autoProgress = checked ∧
        (t.currentMode = Mode.focus → ∀ now' : Int,
          (onTimerComplete (saveSettings t (some n) checked now) now').currentMode
            = if t.sessionsSinceLastLongBreak + 1 ≥ n then Mode.longBreak
              else Mode.shortBreak)) ∧
      (∀ n : Int, n < 1 ∨ 10 < n → saveSettings t (some n) checked now = t) ∧
      saveSettings t none checked now = t := by
  refine ⟨?_, ?_, rfl⟩
  · intro n h1 h10
    have hs : saveSettings t (some n) checked now
        = saveState { t with SESSIONS_BEFORE_LONG_BREAK := n, autoProgress := checked } now := by
      simp [saveSettings, h1, h10]
    refine ⟨hs, by rw [hs]; rfl, by rw [hs]; rfl, ?_⟩
    intro hm now'
    rw [onTimerComplete_currentMode, hs]
    simp only [saveState, hm]
  · intro n hn
    have : ¬ (n ≥ 1 ∧ n ≤ 10) := by omega
    simp [saveSettings, this]

/-- Witness for C8: on a just started day, 1 is accepted and the next focus
completion goes to the long break; 0 and 11 change nothing. -/
theorem saveSettings_validation_witness :
    (onTimerComplete (saveSettings (startDay (fresh Storage.missing) 0) (some 1) true 1)
        2).currentMode = Mode.longBreak ∧
      saveSettings (startDay (fresh Storage.missing) 0) (some 0) true 1
        = startDay (fresh Storage.missing) 0 ∧
      saveSettings (startDay (fresh Storage.missing) 0) (some 11) true 1
        = startDay (fresh Storage.missing) 0 :=
  have h := saveSettings_validation (startDay (fresh Storage.missing) 0) true 1
  ⟨((h.1 1 (by decide) (by decide)).2.2.2 rfl 2).trans (by decide),
    h.2.1 0 (Or.inl (by decide)), h.2.1 11 (Or.inr (by decide))⟩

theorem start_SESSIONS_BEFORE_LONG_BREAK (t : PomodoroTimer) (now : Int) :
    (start t now).SESSIONS_BEFORE_LONG_BREAK = t.SESSIONS_BEFORE_LONG_BREAK := by
  unfold start saveState
  split
  · rfl
  · split <;> rfl

/-- C9 (as stated, refuted). A stored threshold of 11 or of -3 is adopted by
`loadState`; only the stored 0 leaves the default 4. -/
theorem load_adopts_out_of_range :
    (construct (Storage.saved (storedThreshold (some 11))) 0).map
        PomodoroTimer.SESSIONS_BEFORE_LONG_BREAK = some 11 ∧
      (construct (Storage.saved (storedThreshold (some (-3)))) 0).map
        PomodoroTimer.SESSIONS_BEFORE_LONG_BREAK = some (-3) ∧
      (construct (Storage.saved (storedThreshold (some 0))) 0).map
        PomodoroTimer.SESSIONS_BEFORE_LONG_BREAK = some 4 := by
  decide

/-- C9 (amended). For every snapshot, `loadState` on a fresh engine keeps
the threshold at its initial 4 exactly when the stored
`sessionsBeforeLongBreak` is absent or 0 and otherwise adopts the stored value
unchanged; so the threshold after `loadState` is in `[1,10]` if and only if
the stored value is absent, 0 or in `[1,10]`. -/
theorem loadState_threshold (state : Snapshot) (now : Int) :
    ∃ t', construct (Storage.saved state) now = some t' ∧
      t'.SESSIONS_BEFORE_LONG_BREAK
        = (match state.sessionsBeforeLongBreak with
           | some n => if n ≠ 0 then n else 4
           | none => 4) ∧
      ((1 ≤ t'.SESSIONS_BEFORE_LONG_BREAK ∧ t'.SESSIONS_BEFORE_LONG_BREAK ≤ 10) ↔
        (state.sessionsBeforeLongBreak = none ∨ state.sessionsBeforeLongBreak = some 0 ∨
          ∃ n, state.sessionsBeforeLongBreak = some n ∧ 1 ≤ n ∧ n ≤ 10)) := by
  have hr := restoreFields_SESSIONS_BEFORE_LONG_BREAK (fresh (Storage.saved state)) state
  have hf : (fresh (Storage.saved state)).SESSIONS_BEFORE_LONG_BREAK = 4 := rfl
  rw [hf] at hr
  have hex : ∃ t', construct (Storage.saved state) now = some t' ∧
      t'.SESSIONS_BEFORE_LONG_BREAK
        = (restoreFields (fresh (Storage.saved state)) state).SESSIONS_BEFORE_LONG_BREAK := by
    have hfs : (fresh (Storage.saved state)).localStorage = Storage.saved state := rfl
    unfold construct loadState
    simp only [hfs]
    split
    · split
      · exact ⟨_, rfl, by rw [onTimerComplete_SESSIONS_BEFORE_LONG_BREAK]⟩
      · exact ⟨_, rfl, by rw [start_SESSIONS_BEFORE_LONG_BREAK]⟩
    · exact ⟨_, rfl, rfl⟩
  obtain ⟨t', h1, h2⟩ := hex
  refine ⟨t', h1, h2.trans hr, ?_⟩
  rw [h2, hr]
  cases hsb : state.sessionsBeforeLongBreak with
  | none => simp
  | some n =>
    by_cases hn : n = 0
    · subst hn; simp
    · simp [hn]

/-! ## Auto-progress -/

theorem onTimerComplete_flags (t : PomodoroTimer) (now : Int) :
    (onTimerComplete t now).isRunning = false ∧
      (onTimerComplete t now).dayActive = t.dayActive ∧
      (onTimerComplete t now).autoProgress = t.autoProgress ∧
      (onTimerComplete t now).pendingAutoStarts
        = if t.autoProgress && t.dayActive then t.pendingAutoStarts + 1
          else t.pendingAutoStarts := by
  unfold onTimerComplete pause saveState switchMode
  cases hm : t.currentMode <;> cases hr : t.isRunning <;> cases ha : t.autoProgress <;>
    cases hd : t.dayActive <;> simp [hm, hr, ha, hd] <;> split <;> simp [ha, hd]

/-- C10 (as stated, refuted). With auto-progress on and an active day, a
completion schedules the automatic start; after `pause()` or after `reset()`
the callback still fires and sets `isRunning` to true. -/
theorem auto_start_survives_pause_reset :
    autoProgressDay.autoProgress = true ∧ autoProgressDay.dayActive = true ∧
      (onTimerComplete autoProgressDay 1000).pendingAutoStarts = 1 ∧
      (pause (onTimerComplete autoProgressDay 1000) 1200).isRunning = false ∧
      (autoStartFires (pause (onTimerComplete autoProgressDay 1000) 1200) 2000).isRunning
        = true ∧
      (reset (onTimerComplete autoProgressDay 1000) 1200).isRunning = false ∧
      (autoStartFires (reset (onTimerComplete autoProgressDay 1000) 1200) 2000).isRunning
        = true := by
  decide

/-- C10 (amended). With `autoProgress = true` and an active day, a completion
schedules one automatic start and leaves the countdown stopped; `pause()` and
`reset()` called before it fires remove nothing from the scheduled callbacks,
and when the callback fires `start()` runs and sets `isRunning` to true. -/
theorem auto_start_not_cancelled (t : PomodoroTimer) (now1 now2 now3 : Int)
    (hauto : t.autoProgress = true) (hday : t.dayActive = true) :
    (onTimerComplete t now1).pendingAutoStarts = t.pendingAutoStarts + 1 ∧
      (onTimerComplete t now1).isRunning = false ∧
      (pause (onTimerComplete t now1) now2).pendingAutoStarts = t.pendingAutoStarts + 1 ∧
      (reset (onTimerComplete t now1) now2).pendingAutoStarts = t.pendingAutoStarts + 1 ∧
      (autoStartFires (pause (onTimerComplete t now1) now2) now3).isRunning = true ∧
      (autoStartFires (reset (onTimerComplete t now1) now2) now3).isRunning = true := by
  obtain ⟨f1, f2, -, f4⟩ := onTimerComplete_flags t now1
  rw [hauto, hday] at f4
  simp only [Bool.and_self, if_true] at f4
  rw [hday] at f2
  have hp : pause (onTimerComplete t now1) now2 = onTimerComplete t now1 := by
    unfold pause; rw [f1]; simp
  refine ⟨f4, f1, by rw [hp, f4], ?_, ?_, ?_⟩
  · simp only [reset, hp, saveState, f4]
  · rw [hp]
    simp [autoStartFires, start, saveState, f1, f2]
  · simp [autoStartFires, start, reset, hp, saveState, f1, f2]

/-- Witness for C10 (amended): the day of `autoProgressDay`. -/
theorem auto_start_not_cancelled_witness :
    autoProgressDay.autoProgress = true ∧ autoProgressDay.dayActive = true ∧
      (autoStartFires (pause (onTimerComplete autoProgressDay 1000) 1200) 2000).isRunning
        = true :=
  ⟨rfl, rfl, (auto_start_not_cancelled autoProgressDay 1000 1200 2000 rfl rfl).2.2.2.2.1⟩

/-! ## Starting and ending -/

/-- C11. No countdown without a day: with `dayActive = false`, `start()`
returns the state unchanged (in particular `isRunning` is not set); and
whenever the state returned by `start()` has `isRunning = true`, the day was
active or the timer was already running. -/
theorem start_needs_active_day (t : PomodoroTimer) (now : Int) :
    (t.dayActive = false → start t now = t) ∧
      ((start t now).isRunning = true → t.dayActive = true ∨ t.isRunning = true) := by
  constructor
  · intro h
    simp [start, h]
  · intro h
    cases hd : t.dayActive with
    | true => exact Or.inl rfl
    | false =>
      right
      simpa [start, hd] using h

/-- Witness for C11: `start()` on the fresh engine, whose day is not active. -/
theorem start_needs_active_day_witness :
    (fresh Storage.missing).dayActive = false ∧
      start (fresh Storage.missing) 0 = fresh Storage.missing :=
  ⟨rfl, (start_needs_active_day (fresh Storage.missing) 0).1 rfl⟩

/-- C12 (code at the failing input). After `startDay`, `start`, `startNewDay`
the state is reachable by intents alone, its mode is Ready, its day is not
active, and `isRunning` and the tick interval are still on. -/
theorem ready_while_running :
    Reachable noReconciliation newDayWhileRunning ∧
      newDayWhileRunning.currentMode = Mode.ready ∧
      newDayWhileRunning.dayActive = false ∧
      newDayWhileRunning.isRunning = true ∧
      newDayWhileRunning.timerInterval = true := by
  have r0 : Reachable noReconciliation (fresh Storage.missing) := Reachable.init
  have r1 := Reachable.next (fresh Storage.missing) (startDay (fresh Storage.missing) 0)
    Event.startDay 0 r0 rfl rfl
  have r2 := Reachable.next _ (start (startDay (fresh Storage.missing) 0) 0)
    Event.start 0 r1 rfl rfl
  have r3 := Reachable.next _ newDayWhileRunning Event.startNewDay 0 r2 rfl rfl
  exact ⟨r3, by decide, by decide, by decide, by decide⟩

/-! ## Progress toward the long break -/

theorem ProgressInRange_of_eq (t t' : PomodoroTimer) (h : ProgressInRange t)
    (h1 : t'.SESSIONS_BEFORE_LONG_BREAK = t.SESSIONS_BEFORE_LONG_BREAK)
    (h2 : t'.sessionsSinceLastLongBreak = t.sessionsSinceLastLongBreak)
    (h3 : t'.currentMode = t.currentMode) : ProgressInRange t' := by
  unfold ProgressInRange at *
  rw [h1, h2, h3]; exact h

theorem pause_progress (t : PomodoroTimer) (now : Int) :
    (pause t now).SESSIONS_BEFORE_LONG_BREAK = t.SESSIONS_BEFORE_LONG_BREAK ∧
      (pause t now).sessionsSinceLastLongBreak = t.sessionsSinceLastLongBreak ∧
      (pause t now).currentMode = t.currentMode := by
  unfold pause saveState
  split <;> exact ⟨rfl, rfl, rfl⟩

theorem start_progress (t : PomodoroTimer) (now : Int) :
    (start t now).SESSIONS_BEFORE_LONG_BREAK = t.SESSIONS_BEFORE_LONG_BREAK ∧
      (start t now).sessionsSinceLastLongBreak = t.sessionsSinceLastLongBreak ∧
      (start t now).currentMode = t.currentMode := by
  unfold start saveState
  split
  · exact ⟨rfl, rfl, rfl⟩
  · split <;> exact ⟨rfl, rfl, rfl⟩

theorem ProgressInRange_onTimerComplete (t : PomodoroTimer) (now : Int)
    (h : ProgressInRange t) : ProgressInRange (onTimerComplete t now) := by
  obtain ⟨h1, h2, h3, h4⟩ := h
  unfold ProgressInRange
  rw [onTimerComplete_SESSIONS_BEFORE_LONG_BREAK, onTimerComplete_sessionsSinceLastLongBreak,
    onTimerComplete_currentMode]
  cases hm : t.currentMode with
  | ready =>
    simp only []
    exact ⟨h1, h2, h3, by intro hc; rcases hc with hc | hc <;> cases hc⟩
  | focus =>
    have hlt := h4 (Or.inl hm)
    simp only []
    refine ⟨h1, by omega, by omega, ?_⟩
    intro hc
    by_cases hge : t.sessionsSinceLastLongBreak + 1 ≥ t.SESSIONS_BEFORE_LONG_BREAK
    · rw [if_pos hge] at hc
      rcases hc with hc | hc <;> cases hc
    · omega
  | shortBreak =>
    have hlt := h4 (Or.inr hm)
    simp only []
    exact ⟨h1, h2, h3, fun _ => hlt⟩
  | longBreak =>
    simp only []
    exact ⟨h1, le_refl _, by omega, fun _ => by omega⟩

theorem ProgressInRange_step (t t' : PomodoroTimer) (e : Event) (now : Int)
    (hp : ProgressInRange t) (hc : thresholdCoversCounter t e now)
    (h : step t e now = some t') : ProgressInRange t' := by
  obtain ⟨hrec, hkeep⟩ := hc
  obtain ⟨p1, p2, p3⟩ := pause_progress t now
  cases e with
  | startDay =>
    simp only [step, Option.some.injEq] at h
    subst h
    have e1 : (startDay t now).SESSIONS_BEFORE_LONG_BREAK = t.SESSIONS_BEFORE_LONG_BREAK := rfl
    have e2 : (startDay t now).sessionsSinceLastLongBreak = 0 := rfl
    have h1 := hp.1
    unfold ProgressInRange
    rw [e1, e2]
    exact ⟨h1, le_refl _, by omega, fun _ => by omega⟩
  | endDay =>
    simp only [step, Option.some.injEq] at h
    subst h
    unfold endDay
    simp only []
    split
    · exact ProgressInRange_of_eq t _ hp p1 p2 p3
    · exact ProgressInRange_of_eq t _ hp rfl rfl rfl
  | startNewDay =>
    simp only [step, Option.some.injEq] at h
    subst h
    have e1 : (startNewDay t now).SESSIONS_BEFORE_LONG_BREAK
        = t.SESSIONS_BEFORE_LONG_BREAK := rfl
    have e2 : (startNewDay t now).sessionsSinceLastLongBreak = 0 := rfl
    have h1 := hp.1
    unfold ProgressInRange
    rw [e1, e2]
    exact ⟨h1, le_refl _, by omega, fun _ => by omega⟩
  | start =>
    simp only [step, Option.some.injEq] at h
    subst h
    obtain ⟨s1, s2, s3⟩ := start_progress t now
    exact ProgressInRange_of_eq t _ hp s1 s2 s3
  | pause =>
    simp only [step, Option.some.injEq] at h
    subst h
    exact ProgressInRange_of_eq t _ hp p1 p2 p3
  | reset =>
    simp only [step, Option.some.injEq] at h
    subst h
    exact ProgressInRange_of_eq t _ hp p1 p2 p3
  | saveSettings newSessions checked =>
    simp only [step, Option.some.injEq] at h
    subst h
    unfold saveSettings
    split
    · rename_i n
      split
      · rename_i hn
        have hcov : t.sessionsSinceLastLongBreak ≤ n ∧
            (t.currentMode = Mode.focus ∨ t.currentMode = Mode.shortBreak →
              t.sessionsSinceLastLongBreak < n) := by
          simp only [settingCoversCounter, hn, and_self, if_true, Bool.and_eq_true,
            decide_eq_true_eq] at hkeep
          refine ⟨hkeep.1, fun hm => ?_⟩
          have h2 := hkeep.2
          rw [if_pos hm] at h2
          simpa using h2
        exact ⟨hn.1, hp.2.1, hcov.1, hcov.2⟩
      · exact hp
    · exact hp
  | tick =>
    simp only [step, Option.some.injEq] at h
    subst h
    unfold tick
    split
    · exact ProgressInRange_of_eq t _ hp rfl rfl rfl
    · exact ProgressInRange_onTimerComplete t now hp
  | complete =>
    simp only [step, Option.some.injEq] at h
    subst h
    exact ProgressInRange_onTimerComplete t now hp
  | autoStart =>
    simp only [step] at h
    split at h
    · simp only [Option.some.injEq] at h
      subst h
      obtain ⟨s1, s2, s3⟩ :=
        start_progress { t with pendingAutoStarts := t.pendingAutoStarts - 1 } now
      exact ProgressInRange_of_eq t _ hp s1 s2 s3
    · simp at h
  | periodicSave =>
    simp only [step] at h
    split at h
    · simp only [Option.some.injEq] at h
      subst h
      exact ProgressInRange_of_eq t _ hp rfl rfl rfl
    · simp only [Option.some.injEq] at h
      subst h; exact hp
  | beforeUnload =>
    simp only [step, Option.some.injEq] at h
    subst h
    exact ProgressInRange_of_eq t _ hp rfl rfl rfl
  | reload => simp [isReconciliation] at hrec
  | visible => simp [isReconciliation] at hrec

/-- C13 (as stated, refuted). Three focus sessions into a day with threshold
4, an accepted `saveSettings` with the value 2 leaves
`sessionsSinceLastLongBreak = 3` above `SESSIONS_BEFORE_LONG_BREAK = 2`. -/
theorem progress_exceeds_lowered_threshold :
    Reachable noReconciliation thresholdLowered ∧
      thresholdLowered.sessionsSinceLastLongBreak = 3 ∧
      thresholdLowered.SESSIONS_BEFORE_LONG_BREAK = 2 ∧
      ¬ (thresholdLowered.sessionsSinceLastLongBreak
        ≤ thresholdLowered.SESSIONS_BEFORE_LONG_BREAK) := by
  have r0 : Reachable noReconciliation (fresh Storage.missing) := Reachable.init
  have r1 := Reachable.next (fresh Storage.missing) (startDay (fresh Storage.missing) 0)
    Event.startDay 0 r0 rfl rfl
  have r2 := Reachable.next _ (completions (startDay (fresh Storage.missing) 0) [0])
    Event.complete 0 r1 rfl rfl
  have r3 := Reachable.next _ (completions (startDay (fresh Storage.missing) 0) [0, 0])
    Event.complete 0 r2 rfl rfl
  have r4 := Reachable.next _ (completions (startDay (fresh Storage.missing) 0) [0, 0, 0])
    Event.complete 0 r3 rfl rfl
  have r5 := Reachable.next _ (completions (startDay (fresh Storage.missing) 0) [0, 0, 0, 0])
    Event.complete 0 r4 rfl rfl
  have r6 := Reachable.next _ (completions (startDay (fresh Storage.missing) 0) [0, 0, 0, 0, 0])
    Event.complete 0 r5 rfl rfl
  have r7 := Reachable.next _ thresholdLowered (Event.saveSettings (some 2) false) 0 r6 rfl rfl
  exact ⟨r7, by decide, by decide, by decide⟩

/-- Why equality is excluded during a focus interval or a short break: with
the counter at 3 in a short break, saving the threshold 3 keeps `3 ≤ 3`, but
the next focus completion makes the counter 4 above the threshold 3. -/
theorem threshold_equal_counter_overshoots :
    Reachable noReconciliation thresholdMet ∧
      thresholdMet.sessionsSinceLastLongBreak = 4 ∧
      thresholdMet.SESSIONS_BEFORE_LONG_BREAK = 3 := by
  have r0 : Reachable noReconciliation (fresh Storage.missing) := Reachable.init
  have r1 := Reachable.next (fresh Storage.missing) (startDay (fresh Storage.missing) 0)
    Event.startDay 0 r0 rfl rfl
  have r2 := Reachable.next _ (completions (startDay (fresh Storage.missing) 0) [0])
    Event.complete 0 r1 rfl rfl
  have r3 := Reachable.next _ (completions (startDay (fresh Storage.missing) 0) [0, 0])
    Event.complete 0 r2 rfl rfl
  have r4 := Reachable.next _ (completions (startDay (fresh Storage.missing) 0) [0, 0, 0])
    Event.complete 0 r3 rfl rfl
  have r5 := Reachable.next _ (completions (startDay (fresh Storage.missing) 0) [0, 0, 0, 0])
    Event.complete 0 r4 rfl rfl
  have r6 := Reachable.next _ (completions (startDay (fresh Storage.missing) 0) [0, 0, 0, 0, 0])
    Event.complete 0 r5 rfl rfl
  have r7 := Reachable.next _
    (saveSettings (completions (startDay (fresh Storage.missing) 0) [0, 0, 0, 0, 0]) (some 3)
      false 0)
    (Event.saveSettings (some 3) false) 0 r6 rfl rfl
  have r8 := Reachable.next _
    (completions
      (saveSettings (completions (startDay (fresh Storage.missing) 0) [0, 0, 0, 0, 0]) (some 3)
        false 0) [0])
    Event.complete 0 r7 rfl rfl
  have r9 := Reachable.next _ thresholdMet Event.complete 0 r8 rfl rfl
  exact ⟨r9, by decide, by decide⟩

/-- C13 (amended). In every state reachable from the initial state by any
sequence of startDay, endDay, startNewDay, start, pause, reset, tick,
completion and accepted saveSettings calls each of which sets a threshold not
below the current `sessionsSinceLastLongBreak`, and above it when the call
is made during a focus interval or a short break,
`0 ≤ sessionsSinceLastLongBreak ≤ SESSIONS_BEFORE_LONG_BREAK`, with the
threshold at least 1. -/
theorem progress_in_range (t : PomodoroTimer) (h : Reachable thresholdCoversCounter t) :
    0 ≤ t.sessionsSinceLastLongBreak ∧
      t.sessionsSinceLastLongBreak ≤ t.SESSIONS_BEFORE_LONG_BREAK ∧
      1 ≤ t.SESSIONS_BEFORE_LONG_BREAK := by
  have hp : ProgressInRange t := by
    induction h with
    | init => exact ⟨by decide, by decide, by decide, fun _ => by decide⟩
    | next t t' e now _ hc hs ih => exact ProgressInRange_step t t' e now ih hc hs
  exact ⟨hp.2.1, hp.2.2.1, hp.1⟩

theorem loweredInTime_reachable : Reachable thresholdCoversCounter loweredInTime := by
  have r0 : Reachable thresholdCoversCounter (fresh Storage.missing) := Reachable.init
  have r1 := Reachable.next (fresh Storage.missing) (startDay (fresh Storage.missing) 0)
    Event.startDay 0 r0 (by unfold thresholdCoversCounter; decide) rfl
  have r2 := Reachable.next _ (completions (startDay (fresh Storage.missing) 0) [0])
    Event.complete 0 r1 (by unfold thresholdCoversCounter; decide) rfl
  have r3 := Reachable.next _
    (saveSettings (completions (startDay (fresh Storage.missing) 0) [0]) (some 2) false 0)
    (Event.saveSettings (some 2) false) 0 r2 (by unfold thresholdCoversCounter; decide) rfl
  have r4 := Reachable.next _
    (completions
      (saveSettings (completions (startDay (fresh Storage.missing) 0) [0]) (some 2) false 0)
      [0])
    Event.complete 0 r3 (by unfold thresholdCoversCounter; decide) rfl
  exact Reachable.next _ loweredInTime Event.complete 0 r4
    (by unfold thresholdCoversCounter; decide) rfl

/-- Witness for C13 (amended): the threshold is lowered from 4 to 2 during the
first short break, while the counter is 1; after the second focus completion
the counter is 2 of 2. -/
theorem progress_in_range_witness :
    Reachable thresholdCoversCounter loweredInTime ∧
      loweredInTime.SESSIONS_BEFORE_LONG_BREAK = 2 ∧
      loweredInTime.sessionsSinceLastLongBreak = 2 ∧
      loweredInTime.sessionsSinceLastLongBreak ≤ loweredInTime.SESSIONS_BEFORE_LONG_BREAK :=
  ⟨loweredInTime_reachable, by decide, by decide,
    (progress_in_range loweredInTime loweredInTime_reachable).2.1⟩

/-! ## Cold start and stopped snapshots -/

/-- C14 (as stated, refuted). On an entry that `JSON.parse` cannot parse,
`loadState` raises the parse error: the constructor yields no engine. -/
theorem corrupt_snapshot_throws :
    loadState (fresh Storage.corrupt) 0 = none ∧
      ¬ ∃ t, construct Storage.corrupt 0 = some t := by
  refine ⟨rfl, ?_⟩
  rintro ⟨t, ht⟩
  cases ht

/-- C14 (amended). When the stored snapshot is absent, `loadState` raises no
error and leaves the engine fresh: mode Ready, not running, day inactive, all
counters 0, threshold 4, auto-progress off,
`timeRemaining = totalTime = FOCUS_TIME`; when the stored text is not
parsable, `loadState` raises the error of `JSON.parse` at every clock
reading. -/
theorem cold_start (now : Int) :
    construct Storage.missing now = some (fresh Storage.missing) ∧
      (fresh Storage.missing).currentMode = Mode.ready ∧
      (fresh Storage.missing).isRunning = false ∧
      (fresh Storage.missing).dayActive = false ∧
      (fresh Storage.missing).completedFocusSessions = 0 ∧
      (fresh Storage.missing).completedShortBreaks = 0 ∧
      (fresh Storage.missing).completedLongBreaks = 0 ∧
      (fresh Storage.missing).sessionsSinceLastLongBreak = 0 ∧
      (fresh Storage.missing).SESSIONS_BEFORE_LONG_BREAK = 4 ∧
      (fresh Storage.missing).autoProgress = false ∧
      (fresh Storage.missing).timeRemaining = FOCUS_TIME ∧
      (fresh Storage.missing).totalTime = FOCUS_TIME ∧
      construct Storage.corrupt now = none :=
  ⟨rfl, rfl, rfl, rfl, rfl, rfl, rfl, rfl, rfl, rfl, rfl, rfl, rfl⟩

/-- C15. Reconciliation of a non-running snapshot: for a snapshot with
`isRunning = false`, at every current time `loadState` on a fresh engine
yields `timeRemaining` equal to the stored value, does not start the
countdown and fires no completion (mode and counters are the snapshot's and
no automatic start is scheduled). -/
theorem reconcile_stopped_snapshot (state : Snapshot) (now : Int)
    (hstop : state.isRunning = false) :
    ∃ t', construct (Storage.saved state) now = some t' ∧
      t'.timeRemaining = state.timeRemaining ∧
      t'.isRunning = false ∧
      t'.timerInterval = false ∧
      t'.pendingAutoStarts = 0 ∧
      t'.currentMode = state.currentMode ∧
      t'.completedFocusSessions = state.completedFocusSessions ∧
      t'.completedShortBreaks = state.completedShortBreaks ∧
      t'.completedLongBreaks = state.completedLongBreaks ∧
      t'.sessionsSinceLastLongBreak = state.sessionsSinceLastLongBreak := by
  obtain ⟨r1, -, -, r4, r5, r6, r7, -, r9, r10, -, r12⟩ :=
    restoreFields_core (fresh (Storage.saved state)) state
  have hload : construct (Storage.saved state) now
      = some { restoreFields (fresh (Storage.saved state)) state with
          timeRemaining := state.timeRemaining } := by
    simp [construct, loadState, fresh, hstop]
  exact ⟨_, hload, rfl, r9, r10, r12, r1, r4, r5, r6, r7⟩

/-- Witness for C15: a stopped snapshot read 150 seconds before and 150
seconds after its `lastUpdate`. -/
theorem reconcile_stopped_snapshot_witness :
    (storedThreshold (some 4)).isRunning = false ∧
      (∃ t', construct (Storage.saved (storedThreshold (some 4))) 150000 = some t' ∧
        t'.timeRemaining = 100) ∧
      (∃ t', construct (Storage.saved (storedThreshold (some 4))) (-150000) = some t' ∧
        t'.timeRemaining = 100) :=
  ⟨rfl,
    (reconcile_stopped_snapshot (storedThreshold (some 4)) 150000 rfl).imp
      fun _ hx => ⟨hx.1, hx.2.1⟩,
    (reconcile_stopped_snapshot (storedThreshold (some 4)) (-150000) rfl).imp
      fun _ hx => ⟨hx.1, hx.2.1⟩⟩

/-! ## Counter accounting -/

theorem completions_counters (nows : List Int) :
    ∀ t : PomodoroTimer,
      (completions t nows).completedFocusSessions
          = t.completedFocusSessions + (completionsOf Mode.focus t nows : Int) ∧
        (completions t nows).completedShortBreaks
          = t.completedShortBreaks + (completionsOf Mode.shortBreak t nows : Int) ∧
        (completions t nows).completedLongBreaks
          = t.completedLongBreaks + (completionsOf Mode.longBreak t nows : Int) := by
  induction nows with
  | nil => intro t; simp [completions, completionsOf]
  | cons a l ih =>
    intro t
    obtain ⟨i1, i2, i3⟩ := ih (onTimerComplete t a)
    rw [completions_cons, i1, i2, i3, onTimerComplete_completedFocusSessions,
      onTimerComplete_completedShortBreaks, onTimerComplete_completedLongBreaks]
    simp only [completionsOf]
    refine ⟨?_, ?_, ?_⟩
    · split <;> (push_cast; omega)
    · split <;> (push_cast; omega)
    · split <;> (push_cast; omega)

theorem completionsOf_total (nows : List Int) :
    ∀ t : PomodoroTimer, t.currentMode ≠ Mode.ready →
      completionsOf Mode.focus t nows + completionsOf Mode.shortBreak t nows
        + completionsOf Mode.longBreak t nows = nows.length := by
  induction nows with
  | nil => intro t _; simp [completionsOf]
  | cons a l ih =>
    intro t ht
    have hnext : (onTimerComplete t a).currentMode ≠ Mode.ready := by
      rw [onTimerComplete_currentMode]
      cases hm : t.currentMode with
      | ready => exact absurd hm ht
      | focus => simp only []; split <;> simp
      | shortBreak => simp
      | longBreak => simp
    have := ih (onTimerComplete t a) hnext
    simp only [completionsOf, List.length_cons]
    cases hm : t.currentMode with
    | ready => exact absurd hm ht
    | focus => simp; omega
    | shortBreak => simp; omega
    | longBreak => simp; omega

/-- Back-to-back completions: the counters after `startDay()` and the
completions at the times `nows` are the numbers of completions handled in each
mode, which add up to the number of completions. -/
theorem consecutive_completions_counters (t0 : PomodoroTimer) (now : Int)
    (nows : List Int) :
    (completions (startDay t0 now) nows).completedFocusSessions
        = (completionsOf Mode.focus (startDay t0 now) nows : Int) ∧
      (completions (startDay t0 now) nows).completedShortBreaks
        = (completionsOf Mode.shortBreak (startDay t0 now) nows : Int) ∧
      (completions (startDay t0 now) nows).completedLongBreaks
        = (completionsOf Mode.longBreak (startDay t0 now) nows : Int) ∧
      completionsOf Mode.focus (startDay t0 now) nows
        + completionsOf Mode.shortBreak (startDay t0 now) nows
        + completionsOf Mode.longBreak (startDay t0 now) nows = nows.length := by
  obtain ⟨c1, c2, c3⟩ := completions_counters nows (startDay t0 now)
  have z1 : (startDay t0 now).completedFocusSessions = 0 := rfl
  have z2 : (startDay t0 now).completedShortBreaks = 0 := rfl
  have z3 : (startDay t0 now).completedLongBreaks = 0 := rfl
  have hmode : (startDay t0 now).currentMode ≠ Mode.ready := by
    have : (startDay t0 now).currentMode = Mode.focus := rfl
    rw [this]; simp
  exact ⟨by rw [c1, z1, zero_add], by rw [c2, z2, zero_add], by rw [c3, z3, zero_add],
    completionsOf_total nows (startDay t0 now) hmode⟩

theorem CountersStored_saveState (t : PomodoroTimer) (now : Int) :
    CountersStored (saveState t now) :=
  ⟨snapshotOf t now, rfl, rfl, rfl, rfl⟩

theorem pause_counters (t : PomodoroTimer) (now : Int) (h : CountersStored t) :
    CountersStored (pause t now) ∧
      (pause t now).completedFocusSessions = t.completedFocusSessions ∧
      (pause t now).completedShortBreaks = t.completedShortBreaks ∧
      (pause t now).completedLongBreaks = t.completedLongBreaks := by
  unfold pause
  split
  · exact ⟨CountersStored_saveState _ now, rfl, rfl, rfl⟩
  · exact ⟨h, rfl, rfl, rfl⟩

theorem start_counters (t : PomodoroTimer) (now : Int) (h : CountersStored t) :
    CountersStored (start t now) ∧
      (start t now).completedFocusSessions = t.completedFocusSessions ∧
      (start t now).completedShortBreaks = t.completedShortBreaks ∧
      (start t now).completedLongBreaks = t.completedLongBreaks := by
  unfold start
  split
  · exact ⟨h, rfl, rfl, rfl⟩
  · split
    · exact ⟨CountersStored_saveState _ now, rfl, rfl, rfl⟩
    · exact ⟨h, rfl, rfl, rfl⟩

theorem onTimerComplete_counters (t : PomodoroTimer) (now : Int) :
    CountersStored (onTimerComplete t now) ∧
      (onTimerComplete t now).completedFocusSessions
        = t.completedFocusSessions
          + (if some t.currentMode = some Mode.focus then 1 else 0) ∧
      (onTimerComplete t now).completedShortBreaks
        = t.completedShortBreaks
          + (if some t.currentMode = some Mode.shortBreak then 1 else 0) ∧
      (onTimerComplete t now).completedLongBreaks
        = t.completedLongBreaks
          + (if some t.currentMode = some Mode.longBreak then 1 else 0) := by
  have key : ∀ t2 : PomodoroTimer,
      CountersStored (if (saveState t2 now).autoProgress && (saveState t2 now).dayActive then
        { saveState t2 now with pendingAutoStarts := (saveState t2 now).pendingAutoStarts + 1 }
        else saveState t2 now) := by
    intro t2
    split <;> exact ⟨snapshotOf t2 now, rfl, rfl, rfl, rfl⟩
  refine ⟨key _, ?_, ?_, ?_⟩
  · rw [onTimerComplete_completedFocusSessions]
    cases t.currentMode <;> simp
  · rw [onTimerComplete_completedShortBreaks]
    cases t.currentMode <;> simp
  · rw [onTimerComplete_completedLongBreaks]
    cases t.currentMode <;> simp

theorem counters_step (t t' : PomodoroTimer) (e : Event) (now : Int)
    (hs : CountersStored t) (hr : restartsDay e = false) (h : step t e now = some t') :
    CountersStored t' ∧
      t'.completedFocusSessions
        = t.completedFocusSessions
          + (if completionMode t e now = some Mode.focus then 1 else 0) ∧
      t'.completedShortBreaks
        = t.completedShortBreaks
          + (if completionMode t e now = some Mode.shortBreak then 1 else 0) ∧
      t'.completedLongBreaks
        = t.completedLongBreaks
          + (if completionMode t e now = some Mode.longBreak then 1 else 0) := by
  have same : ∀ u : PomodoroTimer, CountersStored u →
      u.completedFocusSessions = t.completedFocusSessions →
      u.completedShortBreaks = t.completedShortBreaks →
      u.completedLongBreaks = t.completedLongBreaks →
      completionMode t e now = none →
      CountersStored u ∧
        u.completedFocusSessions
          = t.completedFocusSessions
            + (if completionMode t e now = some Mode.focus then 1 else 0) ∧
        u.completedShortBreaks
          = t.completedShortBreaks
            + (if completionMode t e now = some Mode.shortBreak then 1 else 0) ∧
        u.completedLongBreaks
          = t.completedLongBreaks
            + (if completionMode t e now = some Mode.longBreak then 1 else 0) := by
    intro u hu h1 h2 h3 hn
    rw [hn]
    simp [hu, h1, h2, h3]
  have fired : ∀ u : PomodoroTimer,
      u.completedFocusSessions = t.completedFocusSessions →
      u.completedShortBreaks = t.completedShortBreaks →
      u.completedLongBreaks = t.completedLongBreaks →
      completionMode t e now = some u.currentMode →
      CountersStored (onTimerComplete u now) ∧
        (onTimerComplete u now).completedFocusSessions
          = t.completedFocusSessions
            + (if completionMode t e now = some Mode.focus then 1 else 0) ∧
        (onTimerComplete u now).completedShortBreaks
          = t.completedShortBreaks
            + (if completionMode t e now = some Mode.shortBreak then 1 else 0) ∧
        (onTimerComplete u now).completedLongBreaks
          = t.completedLongBreaks
            + (if completionMode t e now = some Mode.longBreak then 1 else 0) := by
    intro u h1 h2 h3 hm
    obtain ⟨o0, o1, o2, o3⟩ := onTimerComplete_counters u now
    rw [hm, ← h1, ← h2, ← h3]
    exact ⟨o0, o1, o2, o3⟩
  obtain ⟨state, hst, s1, s2, s3⟩ := hs
  have hs' : CountersStored t := ⟨state, hst, s1, s2, s3⟩
  cases e with
  | startDay => simp [restartsDay] at hr
  | startNewDay => simp [restartsDay] at hr
  | endDay =>
    simp only [step, Option.some.injEq] at h
    subst h
    obtain ⟨-, p1, p2, p3⟩ := pause_counters t now hs'
    refine same _ (CountersStored_saveState _ now) ?_ ?_ ?_ rfl
    · unfold endDay saveState; simp only []; split
      · exact p1
      · rfl
    · unfold endDay saveState; simp only []; split
      · exact p2
      · rfl
    · unfold endDay saveState; simp only []; split
      · exact p3
      · rfl
  | start =>
    simp only [step, Option.some.injEq] at h
    subst h
    obtain ⟨a0, a1, a2, a3⟩ := start_counters t now hs'
    exact same _ a0 a1 a2 a3 rfl
  | pause =>
    simp only [step, Option.some.injEq] at h
    subst h
    obtain ⟨a0, a1, a2, a3⟩ := pause_counters t now hs'
    exact same _ a0 a1 a2 a3 rfl
  | reset =>
    simp only [step, Option.some.injEq] at h
    subst h
    obtain ⟨-, a1, a2, a3⟩ := pause_counters t now hs'
    exact same _ (CountersStored_saveState _ now) a1 a2 a3 rfl
  | saveSettings newSessions checked =>
    simp only [step, Option.some.injEq] at h
    subst h
    unfold saveSettings
    split
    · split
      · exact same _ (CountersStored_saveState _ now) rfl rfl rfl rfl
      · exact same _ hs' rfl rfl rfl rfl
    · exact same _ hs' rfl rfl rfl rfl
  | tick =>
    simp only [step, Option.some.injEq] at h
    subst h
    unfold tick
    split
    · rename_i hpos
      exact same _ ⟨state, hst, s1, s2, s3⟩ rfl rfl rfl (by simp [completionMode, hpos])
    · rename_i hpos
      exact fired t rfl rfl rfl (by simp [completionMode, hpos])
  | complete =>
    simp only [step, Option.some.injEq] at h
    subst h
    exact fired t rfl rfl rfl rfl
  | autoStart =>
    simp only [step] at h
    split at h
    · simp only [Option.some.injEq] at h
      subst h
      obtain ⟨a0, a1, a2, a3⟩ :=
        start_counters { t with pendingAutoStarts := t.pendingAutoStarts - 1 } now
          ⟨state, hst, s1, s2, s3⟩
      exact same _ a0 a1 a2 a3 rfl
    · simp at h
  | periodicSave =>
    simp only [step] at h
    split at h
    · simp only [Option.some.injEq] at h
      subst h
      exact same _ (CountersStored_saveState _ now) rfl rfl rfl rfl
    · simp only [Option.some.injEq] at h
      subst h
      exact same _ hs' rfl rfl rfl rfl
  | beforeUnload =>
    simp only [step, Option.some.injEq] at h
    subst h
    exact same _ (CountersStored_saveState _ now) rfl rfl rfl rfl
  | reload =>
    simp only [step] at h
    rw [hst] at h
    obtain ⟨r1, -, -, r4, r5, r6, -, -, -, -, r11, -⟩ :=
      restoreFields_core (fresh (Storage.saved state)) state
    have hfs : (fresh (Storage.saved state)).localStorage = Storage.saved state := rfl
    unfold construct loadState at h
    simp only [hfs] at h
    cases hrun : state.isRunning with
    | false =>
      simp only [hrun, Bool.false_eq_true, if_false, Option.some.injEq] at h
      subst h
      refine same _ ⟨state, by simp only [r11, hfs], by simp only [r4], by simp only [r5],
        by simp only [r6]⟩ (by simp only [r4, s1]) (by simp only [r5, s2])
        (by simp only [r6, s3]) (by simp [completionMode, hst, hrun])
    | true =>
      simp only [hrun, if_true] at h
      by_cases hz : max 0 (state.timeRemaining - timeElapsed now state) = 0
      · simp only [hz, if_true, Option.some.injEq] at h
        subst h
        exact fired _ (by simp only [r4, s1]) (by simp only [r5, s2]) (by simp only [r6, s3])
          (by simp [completionMode, hst, hrun, hz, r1])
      · simp only [hz, if_false, Option.some.injEq] at h
        subst h
        obtain ⟨a0, a1, a2, a3⟩ :=
          start_counters { restoreFields (fresh (Storage.saved state)) state with
            timeRemaining := max 0 (state.timeRemaining - timeElapsed now state) } now
            ⟨state, by simp only [r11, hfs], by simp only [r4], by simp only [r5],
              by simp only [r6]⟩
        exact same _ a0 (by rw [a1]; simp only [r4, s1]) (by rw [a2]; simp only [r5, s2])
          (by rw [a3]; simp only [r6, s3]) (by simp [completionMode, hst, hrun, hz])
  | visible =>
    simp only [step] at h
    cases hrun : t.isRunning with
    | false =>
      simp only [hrun, Bool.false_eq_true, if_false, Option.some.injEq] at h
      subst h
      exact same _ ⟨state, hst, s1, s2, s3⟩ rfl rfl rfl (by simp [completionMode, hrun])
    | true =>
      simp only [hrun, if_true] at h
      unfold syncTimeFromStorage at h
      split at h
      · rename_i hm; rw [hst] at hm; cases hm
      · rename_i hm; rw [hst] at hm; cases hm
      · rename_i state' hm
        have hse : state' = state := by
          rw [hst] at hm
          exact (Storage.saved.inj hm).symm
        subst hse
        simp only [hrun, if_true] at h
        by_cases hz : max 0 (state'.timeRemaining - timeElapsed now state') = 0
        · simp only [hz, if_true, Option.some.injEq] at h
          subst h
          exact fired _ rfl rfl rfl (by simp [completionMode, hst, hrun, hz])
        · simp only [hz, if_false, Option.some.injEq] at h
          subst h
          exact same _ ⟨state', hst, s1, s2, s3⟩ rfl rfl rfl
            (by simp [completionMode, hst, hrun, hz])

theorem run_counters (trace : List (Event × Int)) :
    ∀ t t' : PomodoroTimer, CountersStored t →
      (∀ p ∈ trace, restartsDay p.1 = false) → run t trace = some t' →
      t'.completedFocusSessions
          = t.completedFocusSessions + (completedIn Mode.focus t trace : Int) ∧
        t'.completedShortBreaks
          = t.completedShortBreaks + (completedIn Mode.shortBreak t trace : Int) ∧
        t'.completedLongBreaks
          = t.completedLongBreaks + (completedIn Mode.longBreak t trace : Int) := by
  induction trace with
  | nil =>
    intro t t' _ _ h
    simp only [run, Option.some.injEq] at h
    subst h
    simp [completedIn]
  | cons p rest ih =>
    intro t t' hs hday h
    obtain ⟨e, now⟩ := p
    have hr : restartsDay e = false := hday (e, now) (List.mem_cons_self _ _)
    have hrest : ∀ q ∈ rest, restartsDay q.1 = false :=
      fun q hq => hday q (List.mem_cons_of_mem _ hq)
    cases hstep : step t e now with
    | none => simp [run, hstep] at h
    | some u =>
      simp only [run, hstep] at h
      obtain ⟨u0, u1, u2, u3⟩ := counters_step t u e now hs hr hstep
      obtain ⟨i1, i2, i3⟩ := ih u t' u0 hrest h
      simp only [completedIn, hstep]
      rw [i1, i2, i3, u1, u2, u3]
      push_cast
      refine ⟨?_, ?_, ?_⟩ <;> ring

theorem step_defined (t : PomodoroTimer) (e : Event) (now : Int) (hs : CountersStored t)
    (he : e = Event.autoStart → 0 < t.pendingAutoStarts) :
    ∃ u, step t e now = some u ∧ CountersStored u := by
  have nonrestart : ∀ u, restartsDay e = false → step t e now = some u →
      ∃ u, step t e now = some u ∧ CountersStored u :=
    fun u hr hu => ⟨u, hu, (counters_step t u e now hs hr hu).1⟩
  obtain ⟨state, hst, -⟩ := hs
  cases e with
  | startDay => exact ⟨_, rfl, CountersStored_saveState _ now⟩
  | startNewDay => exact ⟨_, rfl, CountersStored_saveState _ now⟩
  | endDay => exact nonrestart _ rfl rfl
  | start => exact nonrestart _ rfl rfl
  | pause => exact nonrestart _ rfl rfl
  | reset => exact nonrestart _ rfl rfl
  | saveSettings newSessions checked => exact nonrestart _ rfl rfl
  | tick => exact nonrestart _ rfl rfl
  | complete => exact nonrestart _ rfl rfl
  | beforeUnload => exact nonrestart _ rfl rfl
  | autoStart =>
    have hp := he rfl
    exact nonrestart (autoStartFires t now) rfl (by simp [step, hp])
  | periodicSave =>
    cases hrun : t.isRunning with
    | true => exact nonrestart (saveState t now) rfl (by simp [step, hrun])
    | false => exact nonrestart t rfl (by simp [step, hrun])
  | reload =>
    have hex : ∃ u, step t Event.reload now = some u := by
      simp only [step, hst, construct, loadState, fresh]
      split <;> (try split) <;> exact ⟨_, rfl⟩
    obtain ⟨u, hu⟩ := hex
    exact nonrestart u rfl hu
  | visible =>
    have hex : ∃ u, step t Event.visible now = some u := by
      simp only [step, syncTimeFromStorage, hst]
      split <;> (try split) <;> exact ⟨_, rfl⟩
    obtain ⟨u, hu⟩ := hex
    exact nonrestart u rfl hu

/-- After `startDay()` every trace without the `autoStart` callback has an
outcome: no handler throws, because the storage entry is a snapshot the engine
wrote itself. -/
theorem run_defined (trace : List (Event × Int)) :
    ∀ t : PomodoroTimer, CountersStored t → (∀ p ∈ trace, p.1 ≠ Event.autoStart) →
      ∃ t', run t trace = some t' := by
  induction trace with
  | nil => intro t _ _; exact ⟨t, rfl⟩
  | cons p rest ih =>
    intro t hs hno
    obtain ⟨e, now⟩ := p
    have he : e ≠ Event.autoStart := hno (e, now) (List.mem_cons_self _ _)
    obtain ⟨u, hu, hsu⟩ := step_defined t e now hs (fun h => absurd h he)
    obtain ⟨t', ht'⟩ := ih u hsu (fun q hq => hno q (List.mem_cons_of_mem _ hq))
    exact ⟨t', by simp only [run, hu, ht']⟩

/-- C16. Counter accounting: in a day begun by `startDay()`, after any
sequence of events without `startDay`/`startNewDay` (intents, ticks, saves,
reconciliations, each at any clock reading) in which `K` events complete a
focus interval, `M` a short break and `L` a long break, the counters are
`K`, `M` and `L`; one completion adds exactly 1 to the counter of the
completed mode and nothing to the other two. -/
theorem counter_accounting (t0 : PomodoroTimer) (now : Int) (trace : List (Event × Int))
    (t : PomodoroTimer) (K M L : Nat)
    (hday : ∀ p ∈ trace, restartsDay p.1 = false)
    (hrun : run (startDay t0 now) trace = some t)
    (hK : completedIn Mode.focus (startDay t0 now) trace = K)
    (hM : completedIn Mode.shortBreak (startDay t0 now) trace = M)
    (hL : completedIn Mode.longBreak (startDay t0 now) trace = L) :
    t.completedFocusSessions = (K : Int) ∧
      t.completedShortBreaks = (M : Int) ∧
      t.completedLongBreaks = (L : Int) ∧
      ∀ (u : PomodoroTimer) (now' : Int),
        (onTimerComplete u now').completedFocusSessions
            = u.completedFocusSessions + (if u.currentMode = Mode.focus then 1 else 0) ∧
          (onTimerComplete u now').completedShortBreaks
            = u.completedShortBreaks + (if u.currentMode = Mode.shortBreak then 1 else 0) ∧
          (onTimerComplete u now').completedLongBreaks
            = u.completedLongBreaks + (if u.currentMode = Mode.longBreak then 1 else 0) := by
  obtain ⟨c1, c2, c3⟩ := run_counters trace (startDay t0 now) t
    (CountersStored_saveState _ now) hday hrun
  have z1 : (startDay t0 now).completedFocusSessions = 0 := rfl
  have z2 : (startDay t0 now).completedShortBreaks = 0 := rfl
  have z3 : (startDay t0 now).completedLongBreaks = 0 := rfl
  refine ⟨by rw [c1, z1, hK, zero_add], by rw [c2, z2, hM, zero_add],
    by rw [c3, z3, hL, zero_add], ?_⟩
  intro u now'
  rw [onTimerComplete_completedFocusSessions, onTimerComplete_completedShortBreaks,
    onTimerComplete_completedLongBreaks]
  refine ⟨?_, ?_, ?_⟩ <;> split <;> simp

/-- Witness for C16: the day of `mixedDay`, with a pause, a reset, a settings
change, an automatic start and a page reload between its two focus completions
and its one short-break completion. -/
theorem counter_accounting_witness :
    run (startDay (fresh Storage.missing) 0) mixedDay = some mixedDayEnd ∧
      completedIn Mode.focus (startDay (fresh Storage.missing) 0) mixedDay = 2 ∧
      completedIn Mode.shortBreak (startDay (fresh Storage.missing) 0) mixedDay = 1 ∧
      completedIn Mode.longBreak (startDay (fresh Storage.missing) 0) mixedDay = 0 ∧
      mixedDayEnd.completedFocusSessions = ((2 : Nat) : Int) ∧
      mixedDayEnd.completedShortBreaks = ((1 : Nat) : Int) ∧
      mixedDayEnd.completedLongBreaks = ((0 : Nat) : Int) :=
  have h := counter_accounting (fresh Storage.missing) 0 mixedDay mixedDayEnd 2 1 0
    (by decide) (by decide) (by decide) (by decide) (by decide)
  ⟨by decide, by decide, by decide, by decide, h.1, h.2.1, h.2.2.1⟩

/-! ## Ending the day -/

theorem pause_frame (t : PomodoroTimer) (now : Int) :
    (pause t now).isRunning = false ∧
      (pause t now).completedFocusSessions = t.completedFocusSessions ∧
      (pause t now).completedShortBreaks = t.completedShortBreaks ∧
      (pause t now).completedLongBreaks = t.completedLongBreaks ∧
      (pause t now).dayStartTime = t.dayStartTime ∧
      (pause t now).autoProgress = t.autoProgress := by
  unfold pause saveState
  split
  · exact ⟨rfl, rfl, rfl, rfl, rfl, rfl⟩
  · rename_i h
    exact ⟨by simpa using h, rfl, rfl, rfl, rfl, rfl⟩

/-- C17. Summary message tier: the message of the day summary is a function
of `completedFocusSessions` alone: 0 gives the encouragement to start, 1 to 3
"good start", 4 to 7 "great work", 8 or more "outstanding"; the summary shown
by `endDay()` carries that message. -/
theorem summary_message_tiers (t : PomodoroTimer) (now : Int) :
    (t.completedFocusSessions = 0 → (showSummary t now).message = Message.everyJourney) ∧
      (1 ≤ t.completedFocusSessions → t.completedFocusSessions ≤ 3 →
        (showSummary t now).message = Message.goodStart) ∧
      (4 ≤ t.completedFocusSessions → t.completedFocusSessions ≤ 7 →
        (showSummary t now).message = Message.greatWork) ∧
      (8 ≤ t.completedFocusSessions → (showSummary t now).message = Message.outstanding) ∧
      (∀ (t' : PomodoroTimer) (now' : Int),
        t'.completedFocusSessions = t.completedFocusSessions →
        (showSummary t' now').message = (showSummary t now).message) ∧
      (endDay t now).2.message = (showSummary t now).message := by
  refine ⟨?_, ?_, ?_, ?_, ?_, ?_⟩
  · intro h
    simp [showSummary, h]
  · intro h1 h3
    have a : ¬ t.completedFocusSessions = 0 := by omega
    have b : t.completedFocusSessions < 4 := by omega
    simp [showSummary, a, b]
  · intro h4 h7
    have a : ¬ t.completedFocusSessions = 0 := by omega
    have b : ¬ t.completedFocusSessions < 4 := by omega
    have c : t.completedFocusSessions < 8 := by omega
    simp [showSummary, a, b, c]
  · intro h8
    have a : ¬ t.completedFocusSessions = 0 := by omega
    have b : ¬ t.completedFocusSessions < 4 := by omega
    have c : ¬ t.completedFocusSessions < 8 := by omega
    simp [showSummary, a, b, c]
  · intro t' now' h
    simp only [showSummary, h]
  · obtain ⟨-, p2, -⟩ := pause_frame t now
    unfold endDay
    simp only [showSummary]
    split
    · simp only [p2]
    · rfl

/-- Witness for C17: the five focus sessions of `fiveFocusDay` give "great
work". -/
theorem summary_message_tiers_witness :
    (4 : Int) ≤ fiveFocusDay.completedFocusSessions ∧
      fiveFocusDay.completedFocusSessions ≤ 7 ∧
      (showSummary fiveFocusDay 0).message = Message.greatWork :=
  ⟨by decide, by decide,
    (summary_message_tiers fiveFocusDay 0).2.2.1 (by decide) (by decide)⟩

/-- C18. The frame of `endDay()`: for every state it yields `isRunning = false`
and `dayActive = false` and leaves the three completed counters,
`sessionsSinceLastLongBreak`, `dayStartTime`, the mode, `timeRemaining`,
`totalTime`, the threshold and `autoProgress` unchanged. -/
theorem endDay_frame (t : PomodoroTimer) (now : Int) :
    (endDay t now).1.isRunning = false ∧
      (endDay t now).1.dayActive = false ∧
      (endDay t now).1.completedFocusSessions = t.completedFocusSessions ∧
      (endDay t now).1.completedShortBreaks = t.completedShortBreaks ∧
      (endDay t now).1.completedLongBreaks = t.completedLongBreaks ∧
      (endDay t now).1.sessionsSinceLastLongBreak = t.sessionsSinceLastLongBreak ∧
      (endDay t now).1.dayStartTime = t.dayStartTime ∧
      (endDay t now).1.currentMode = t.currentMode ∧
      (endDay t now).1.timeRemaining = t.timeRemaining ∧
      (endDay t now).1.totalTime = t.totalTime ∧
      (endDay t now).1.SESSIONS_BEFORE_LONG_BREAK = t.SESSIONS_BEFORE_LONG_BREAK ∧
      (endDay t now).1.autoProgress = t.autoProgress := by
  obtain ⟨f1, f2, f3, f4, f5, f6⟩ := pause_frame t now
  obtain ⟨g1, g2, g3⟩ := pause_progress t now
  obtain ⟨t1, t2⟩ := pause_times t now
  cases h : t.isRunning with
  | true =>
    have e : (endDay t now).1 = saveState { pause t now with dayActive := false } now := by
      simp [endDay, h]
    rw [e]
    exact ⟨f1, rfl, f2, f3, f4, g2, f5, g3, t1, t2, g1, f6⟩
  | false =>
    have e : (endDay t now).1 = saveState { t with dayActive := false } now := by
      simp [endDay, h]
    rw [e]
    exact ⟨h, rfl, rfl, rfl, rfl, rfl, rfl, rfl, rfl, rfl, rfl, rfl⟩

/-! ## Snapshot round trip -/

/-- C19. Snapshot round trip: for a state with `isRunning = false` and a
threshold in `[1,10]`, `loadState` on a fresh engine, at any current time,
applied to the snapshot written by `saveState` restores the same mode,
`timeRemaining`, `totalTime`, running flag, `dayActive`, `dayStartTime`, the
three completed counters, `sessionsSinceLastLongBreak`, threshold and
`autoProgress`. -/
theorem snapshot_round_trip (t : PomodoroTimer) (now now' : Int)
    (hstop : t.isRunning = false) (h1 : 1 ≤ t.SESSIONS_BEFORE_LONG_BREAK)
    (_h10 : t.SESSIONS_BEFORE_LONG_BREAK ≤ 10) :
    ∃ t', construct (saveState t now).localStorage now' = some t' ∧
      t'.currentMode = t.currentMode ∧
      t'.timeRemaining = t.timeRemaining ∧
      t'.totalTime = t.totalTime ∧
      t'.isRunning = t.isRunning ∧
      t'.dayActive = t.dayActive ∧
      t'.dayStartTime = t.dayStartTime ∧
      t'.completedFocusSessions = t.completedFocusSessions ∧
      t'.completedShortBreaks = t.completedShortBreaks ∧
      t'.completedLongBreaks = t.completedLongBreaks ∧
      t'.sessionsSinceLastLongBreak = t.sessionsSinceLastLongBreak ∧
      t'.SESSIONS_BEFORE_LONG_BREAK = t.SESSIONS_BEFORE_LONG_BREAK ∧
      t'.autoProgress = t.autoProgress := by
  have hst : (saveState t now).localStorage = Storage.saved (snapshotOf t now) := rfl
  have hne : t.SESSIONS_BEFORE_LONG_BREAK ≠ 0 := by omega
  have hload : construct (Storage.saved (snapshotOf t now)) now'
      = some { restoreFields (fresh (Storage.saved (snapshotOf t now))) (snapshotOf t now) with
          timeRemaining := t.timeRemaining } := by
    simp [construct, loadState, fresh, snapshotOf, hstop]
  obtain ⟨r1, r2, r3, r4, r5, r6, r7, r8, r9, -⟩ :=
    restoreFields_core (fresh (Storage.saved (snapshotOf t now))) (snapshotOf t now)
  have rS := restoreFields_SESSIONS_BEFORE_LONG_BREAK
    (fresh (Storage.saved (snapshotOf t now))) (snapshotOf t now)
  have rA : (restoreFields (fresh (Storage.saved (snapshotOf t now)))
      (snapshotOf t now)).autoProgress = t.autoProgress := by
    simp only [restoreFields, snapshotOf]
  rw [hst]
  refine ⟨_, hload, r1, rfl, r8, ?_, r2, r3, r4, r5, r6, r7, ?_, rA⟩
  · rw [hstop]; exact r9
  · simp only [] at rS ⊢
    rw [rS]
    simp [snapshotOf, hne]

/-- Witness for C19: the paused break of `pausedBreak`, saved at time 5 and
loaded at time 900000. -/
theorem snapshot_round_trip_witness :
    pausedBreak.isRunning = false ∧
      ∃ t', construct (saveState pausedBreak 5).localStorage 900000 = some t' ∧
        t'.currentMode = Mode.shortBreak ∧ t'.timeRemaining = 200 ∧
        t'.SESSIONS_BEFORE_LONG_BREAK = 6 :=
  have h := snapshot_round_trip pausedBreak 5 900000 rfl (by decide) (by decide)
  ⟨rfl, h.imp fun _ hx => ⟨hx.1, hx.2.1, hx.2.2.1, hx.2.2.2.2.2.2.2.2.2.2.2.1⟩⟩

/-! ## Ticks -/

theorem ticks_cons (t : PomodoroTimer) (now : Int) (nows : List Int) :
    ticks t (now :: nows) = ticks (tick t now) nows := rfl

theorem ticks_decrement (nows : List Int) :
    ∀ t : PomodoroTimer, (nows.length : Int) ≤ t.timeRemaining →
      ticks t nows = { t with timeRemaining := t.timeRemaining - (nows.length : Int) } := by
  induction nows with
  | nil => intro t _; simp [ticks]
  | cons a l ih =>
    intro t h
    simp only [List.length_cons, Nat.cast_add, Nat.cast_one] at h
    have hpos : t.timeRemaining > 0 := by omega
    have htick : tick t a = { t with timeRemaining := t.timeRemaining - 1 } := by
      simp [tick, hpos]
    rw [ticks_cons, htick, ih _ (by simp only []; omega)]
    simp only [List.length_cons, Nat.cast_add, Nat.cast_one]
    congr 1
    omega

/-- C20. Ticks per interval: from a freshly entered mode
(`timeRemaining = totalTime = N`), `k ≤ N` ticks only lower `timeRemaining`
to `N - k`, every other field (mode and counters among them) staying as it
was; after the `N`-th tick `timeRemaining` is 0 and no completion has been
handled, and the `(N+1)`-th tick is the completion. -/
theorem ticks_per_interval (t : PomodoroTimer) (N : Nat) (nows : List Int)
    (hfresh : t.timeRemaining = t.totalTime) (hN : t.totalTime = (N : Int))
    (hlen : nows.length ≤ N) :
    ticks t nows = { t with timeRemaining := (N : Int) - (nows.length : Int) } ∧
      (ticks t nows).currentMode = t.currentMode ∧
      (ticks t nows).completedFocusSessions = t.completedFocusSessions ∧
      (ticks t nows).completedShortBreaks = t.completedShortBreaks ∧
      (ticks t nows).completedLongBreaks = t.completedLongBreaks ∧
      (ticks t nows).sessionsSinceLastLongBreak = t.sessionsSinceLastLongBreak ∧
      (nows.length < N → ∀ now : Int,
        tick (ticks t nows) now
          = { t with timeRemaining := (N : Int) - (nows.length : Int) - 1 }) ∧
      (nows.length = N → ∀ now : Int,
        (ticks t nows).timeRemaining = 0 ∧
          tick (ticks t nows) now = onTimerComplete { t with timeRemaining := 0 } now) := by
  have htr : t.timeRemaining = (N : Int) := hfresh.trans hN
  have hd := ticks_decrement nows t (by rw [htr]; exact_mod_cast hlen)
  rw [htr] at hd
  refine ⟨hd, by rw [hd], by rw [hd], by rw [hd], by rw [hd], by rw [hd], ?_, ?_⟩
  · intro hlt now
    have hpos : (N : Int) - (nows.length : Int) > 0 := by omega
    rw [hd]
    simp [tick, hpos]
  · intro heq now
    have hz : (N : Int) - (nows.length : Int) = 0 := by omega
    rw [hd, hz]
    exact ⟨rfl, by simp [tick]⟩

/-- Witness for C20: the 60-second focus interval entered by `startDay` and
started: 60 ticks reach 0 and the 61st is the completion. -/
theorem ticks_per_interval_witness :
    (start (startDay (fresh Storage.missing) 0) 0).totalTime = ((60 : Nat) : Int) ∧
      (ticks (start (startDay (fresh Storage.missing) 0) 0)
        (List.replicate 60 0)).timeRemaining = 0 ∧
      (ticks (start (startDay (fresh Storage.missing) 0) 0)
        (List.replicate 60 0)).currentMode = Mode.focus ∧
      (tick (ticks (start (startDay (fresh Storage.missing) 0) 0) (List.replicate 60 0))
        0).currentMode = Mode.shortBreak :=
  have h := ticks_per_interval (start (startDay (fresh Storage.missing) 0) 0) 60
    (List.replicate 60 0) rfl rfl (by simp)
  have h60 := h.2.2.2.2.2.2.2 (by simp) 0
  ⟨rfl, h60.1, h.2.1, by rw [h60.2]; decide⟩

end Pomodoro
